import Mathlib

/-!
Walletfy events API (`src/index.js`).

A shallow embedding of the Express handlers of `src/index.js` and of the
in-memory collection `eventos` they share.

Conventions of the embedding:

* the collection is a `List Event` in insertion order; a handler is a function
  from the collection and the request to the new collection and the response;
* an event id is an exact integer (`Int`): the seeded ids and every id the
  program assigns are integers, and arithmetic on them is exact (the rounding
  of IEEE doubles above `2^53` is outside the embedding);
* every other field of an event, and every field of a request body, is a JSON
  scalar (`JsVal`); a finite number is an exact rational, and `Number` of a text
  keeps the exact value of the literal inside the range of the doubles and
  gives `Infinity` or `0` outside it (`toDouble`): the rounding of the mantissa
  is outside the embedding, overflow and underflow are inside it;
* `express-validator` is a library outside `src/`: the validators the chains
  of `src/index.js` call are modelled from the specification and are marked so.
-/

namespace Walletfy

/-! ## JavaScript values -/

/-- A JavaScript scalar: what a field of a JSON body, a query parameter or a
field of a stored event holds. `undefined` also stands for an absent key,
`nan` for the number `NaN`, `inf false` for `Infinity` and `inf true` for
`-Infinity`. -/
inductive JsVal where
  | undefined
  | null
  | bool (b : Bool)
  | num (q : ℚ)
  | nan
  | inf (negative : Bool)
  | str (s : String)
deriving DecidableEq, Repr

/-! ## Numeric literals -/

/-- Value of a decimal digit character. -/
def digitVal (c : Char) : Nat := c.toNat - 48

/-- Value of a run of decimal digits, most significant first. -/
def digitsVal (acc : Nat) : List Char → Nat
  | [] => acc
  | c :: cs => digitsVal (acc * 10 + digitVal c) cs

/-- Splits an optional leading sign off: the sign as `1` or `-1`, and the rest. -/
def takeSign : List Char → Int × List Char
  | '-' :: r => (-1, r)
  | '+' :: r => (1, r)
  | cs => (1, cs)

/-- An exponent part: nothing (exponent `0`), or `e`/`E`, an optional sign and
at least one digit, up to the end of the text. -/
def parseExponent : List Char → Option Int
  | [] => some 0
  | c :: r =>
    if c = 'e' ∨ c = 'E' then
      let ds := (takeSign r).2
      if ds.isEmpty || !ds.all Char.isDigit then none
      else some ((takeSign r).1 * (digitsVal 0 ds : Int))
    else none

/-- A numeric literal as read from text: the sign, the digits of the integer
and fraction parts taken together as one natural number, the number of fraction
digits, and the exponent. -/
structure NumLit where
  neg : Bool
  mant : Nat
  fracLen : Nat
  exp : Int
deriving DecidableEq, Repr

/-- Scales `m` by `10 ^ e`, exactly. -/
def scale10 (m : ℚ) (e : Int) : ℚ :=
  if 0 ≤ e then m * ((10 ^ e.toNat : Nat) : ℚ) else m / ((10 ^ (-e).toNat : Nat) : ℚ)

/-- The exact rational a literal denotes. -/
def NumLit.value (d : NumLit) : ℚ :=
  scale10 ((if d.neg then -1 else 1) * (d.mant : ℚ) / ((10 ^ d.fracLen : Nat) : ℚ)) d.exp

/-- The fraction part after the integer digits: the digits that follow a `.`,
and what comes after them; no digits and the text itself without a `.`. -/
def splitFraction : List Char → List Char × List Char
  | '.' :: r => (r.takeWhile Char.isDigit, r.dropWhile Char.isDigit)
  | cs => ([], cs)

/-- Reads a signed decimal literal (ECMAScript `StrDecimalLiteral` without
`Infinity`): optional sign, digits, optional `.` and digits, optional exponent,
with at least one digit before the exponent. `none` when the whole text is not
such a literal. -/
def readDecimal (cs : List Char) : Option NumLit :=
  let body := (takeSign cs).2
  let ip := body.takeWhile Char.isDigit
  let fr := splitFraction (body.dropWhile Char.isDigit)
  if ip.isEmpty && fr.1.isEmpty then none
  else
    match parseExponent fr.2 with
    | none => none
    | some e => some ⟨decide ((takeSign cs).1 < 0), digitsVal 0 (ip ++ fr.1), fr.1.length, e⟩

/-- Value of a signed decimal literal, `none` when the text is not one. -/
def parseDecimal (cs : List Char) : Option ℚ :=
  (readDecimal cs).map NumLit.value

/-- The characters `Number(string)` strips from both ends (ECMAScript
`WhiteSpace` and `LineTerminator`). -/
def isJsSpace (c : Char) : Bool :=
  let n := c.toNat
  n = 9 || n = 10 || n = 11 || n = 12 || n = 13 || n = 32 || n = 0xA0 || n = 0x1680
    || (0x2000 ≤ n && n ≤ 0x200A) || n = 0x2028 || n = 0x2029 || n = 0x202F
    || n = 0x205F || n = 0x3000 || n = 0xFEFF

/-- Strips JavaScript white space from both ends. -/
def jsTrim (cs : List Char) : List Char :=
  ((cs.dropWhile isJsSpace).reverse.dropWhile isJsSpace).reverse

/-- Value of a digit in a radix up to 16, or `none` when the character is not a
digit of that radix. -/
def radixDigit (radix : Nat) (c : Char) : Option Nat :=
  let v : Option Nat :=
    if c.isDigit then some (c.toNat - 48)
    else if 'a'.toNat ≤ c.toNat ∧ c.toNat ≤ 'f'.toNat then some (c.toNat - 87)
    else if 'A'.toNat ≤ c.toNat ∧ c.toNat ≤ 'F'.toNat then some (c.toNat - 55)
    else none
  match v with
  | some d => if d < radix then some d else none
  | none => none

/-- Value of a run of digits in the given radix; `none` on a foreign character. -/
def radixVal (radix : Nat) (acc : Nat) : List Char → Option Nat
  | [] => some acc
  | c :: cs =>
    match radixDigit radix c with
    | some d => radixVal radix (acc * radix + d) cs
    | none => none

/-- A non-decimal integer literal body: at least one digit of the radix. -/
def readRadix (radix : Nat) (cs : List Char) : Option NumLit :=
  if cs.isEmpty then none
  else
    match radixVal radix 0 cs with
    | some n => some ⟨false, n, 0, 0⟩
    | none => none

/-- Reads the text of a number the way `Number(string)` does (ECMAScript
`StringToNumber`): white space is trimmed, the empty text is `0`, then a `0x`,
`0o` or `0b` integer literal or a signed decimal literal. -/
def readNumber (s : String) : Option NumLit :=
  match jsTrim s.toList with
  | [] => some ⟨false, 0, 0, 0⟩
  | '0' :: 'x' :: r => readRadix 16 r
  | '0' :: 'X' :: r => readRadix 16 r
  | '0' :: 'o' :: r => readRadix 8 r
  | '0' :: 'O' :: r => readRadix 8 r
  | '0' :: 'b' :: r => readRadix 2 r
  | '0' :: 'B' :: r => readRadix 2 r
  | cs => readDecimal cs

/-- The exact value of the numeric literal a string `s` holds, read the way
`Number(s)` reads it; `none` when `s` holds no numeric literal (`Number(s)` is
then `NaN`, or an infinity for the text `Infinity`). An id is compared with
this exact value. -/
def jsNumber (s : String) : Option ℚ :=
  (readNumber s).map NumLit.value

/-- The least magnitude that rounds to an infinity: `2^1024 - 2^970`, half-way
between the greatest double and `2^1024` (the tie goes to `2^1024`). -/
def overflowBound : ℚ := 2 ^ 1024 - 2 ^ 970

/-- The greatest magnitude that rounds to zero: `2^(-1075)`, half-way between
zero and the least positive double (the tie goes to zero). -/
def underflowBound : ℚ := 1 / 2 ^ 1075

/-- The double that a literal of exact value `q` denotes, as far as its range
goes: an infinity from `overflowBound` on, zero up to `underflowBound`, and `q`
itself in between (the rounding of the mantissa is outside the embedding). -/
def toDouble (q : ℚ) : JsVal :=
  if overflowBound ≤ abs q then .inf (decide (q < 0))
  else if abs q ≤ underflowBound then .num 0
  else .num q

/-- The sign of the infinity a text denotes for `Number`: the trimmed text is
`Infinity`, `+Infinity` or `-Infinity`; `none` for every other text. -/
def readInfinity (s : String) : Option Bool :=
  if jsTrim s.toList = "Infinity".toList ∨ jsTrim s.toList = "+Infinity".toList then some false
  else if jsTrim s.toList = "-Infinity".toList then some true
  else none

/-- The conversion `Number(v)` that the create and update handlers apply to
`cantidad`. For a text it is an infinity when the text names one, the double
of the numeric literal when the text holds one, and `NaN` otherwise. -/
def toNumber : JsVal → JsVal
  | .undefined => .nan
  | .null => .num 0
  | .bool b => .num (if b then 1 else 0)
  | .num q => .num q
  | .nan => .nan
  | .inf negative => .inf negative
  | .str s =>
    match readInfinity s with
    | some negative => .inf negative
    | none =>
      match jsNumber s with
      | some q => toDouble q
      | none => .nan

/-- The loose comparison `e.id == id` of a numeric id with a request value: a
string or a boolean is converted with `Number`, `null` and `undefined` equal no
number. -/
def looseEq (n : Int) : JsVal → Bool
  | .undefined => false
  | .null => false
  | .bool b => decide ((n : ℚ) = if b then 1 else 0)
  | .num q => decide ((n : ℚ) = q)
  | .nan => false
  | .inf _ => false
  | .str s => decide (jsNumber s = some (n : ℚ))


/-! ## Events, requests and responses -/

/-- An element of `eventos`. A field the object lacks holds `undefined`. -/
structure Event where
  id : Int
  nombre : JsVal
  descripcion : JsVal
  cantidad : JsVal
  fecha : JsVal
  tipo : JsVal
  adjunto : JsVal
deriving DecidableEq, Repr

/-- The first seeded event (lines 17-24). -/
def sueldoEvent : Event :=
  { id := 1, nombre := .str "Sueldo diciembre", descripcion := .str "Pago mensual",
    cantidad := .num 1500, fecha := .str "2024-12-05", tipo := .str "ingreso",
    adjunto := .undefined }

/-- The second seeded event (lines 25-32). -/
def rentaEvent : Event :=
  { id := 2, nombre := .str "Renta", descripcion := .str "Departamento",
    cantidad := .num 600, fecha := .str "2024-12-01", tipo := .str "egreso",
    adjunto := .undefined }

/-- The initial value of `eventos` (lines 16-33). -/
def seedEventos : List Event := [sueldoEvent, rentaEvent]

/-- A JSON request body (`req.body`): the six keys the handlers destructure,
`undefined` when the key is absent, and every other key it carries (`id`
included), which no handler reads. -/
structure Body where
  nombre : JsVal := .undefined
  descripcion : JsVal := .undefined
  cantidad : JsVal := .undefined
  fecha : JsVal := .undefined
  tipo : JsVal := .undefined
  adjunto : JsVal := .undefined
  otros : List (String × JsVal) := []
deriving DecidableEq, Repr

/-- The query string of `GET /api/events`: each parameter is absent or given
once, as text. -/
structure ListQuery where
  tipo : Option String := none
  mes : Option String := none
  page : Option String := none
  limit : Option String := none
deriving DecidableEq, Repr

/-- One entry of `errors.array()`: the field and the message. -/
structure FieldError where
  path : String
  msg : String
deriving DecidableEq, Repr

/-- The `data` member of a response envelope. -/
inductive Data where
  | event (event : Event)
  | all (events : List Event) (total : Nat)
  | page (events : List Event) (page limit : Int) (total : Nat)
deriving DecidableEq, Repr

/-- An HTTP status with the JSON envelope sent under it. -/
structure Response where
  status : Nat
  code : String
  message : String
  data : Option Data := none
  errors : Option (List FieldError) := none
deriving DecidableEq, Repr

/-! ## Validators (express-validator) -/

/-- Modelled from the spec: express-validator is not under `src/`. A value is
empty for `notEmpty()` when its text form is the empty string: an absent or
null value, `NaN`, or the empty string itself ("required non-empty"). -/
def textEmpty : JsVal → Bool
  | .undefined => true
  | .null => true
  | .nan => true
  | .str s => s.toList.isEmpty
  | .bool _ => false
  | .num _ => false
  | .inf _ => false

/-- Modelled from the spec: `notEmpty()` of express-validator. -/
def notEmpty (v : JsVal) : Bool := !textEmpty v

/-- Modelled from the spec: `isString()` of express-validator, the test
`typeof value === "string"`. -/
def isString : JsVal → Bool
  | .str _ => true
  | _ => false

/-- A number is greater than `0`: a positive finite number or `Infinity`. -/
def numberGt0 : JsVal → Bool
  | .num q => decide (0 < q)
  | .inf negative => !negative
  | _ => false

/-- Modelled from the spec: `isFloat({ gt: 0 })` of
express-validator ("numeric, > 0", numeric strings included): the text form of
the value is a decimal literal, and the double it denotes (`parseFloat`) is
greater than `0`. The text form of a finite number is a decimal literal of that
number; that of a boolean, of `null`, of an infinity or of an absent value is
none. -/
def isFloatGt0 : JsVal → Bool
  | .num q => decide (0 < q)
  | .str s =>
    match parseDecimal s.toList with
    | some q => numberGt0 (toDouble q)
    | none => false
  | _ => false

/-- Modelled from the spec: the text `YYYY-MM-DD` with a month from `01` to
`12` and a day from `01` to `31` ("calendar date in `YYYY-MM-DD` form"). -/
def isoDate : List Char → Bool
  | [y1, y2, y3, y4, s1, m1, m2, s2, d1, d2] =>
    y1.isDigit && y2.isDigit && y3.isDigit && y4.isDigit && s1 = '-'
      && m1.isDigit && m2.isDigit && s2 = '-' && d1.isDigit && d2.isDigit
      && 1 ≤ digitsVal 0 [m1, m2] && digitsVal 0 [m1, m2] ≤ 12
      && 1 ≤ digitsVal 0 [d1, d2] && digitsVal 0 [d1, d2] ≤ 31
  | _ => false

/-- Modelled from the spec: `isISO8601()` of express-validator on the text form
of the value; only a string can have the form `YYYY-MM-DD`. This is the form
the message of the chain names; no statement on stored events relies on it. -/
def isISO8601 : JsVal → Bool
  | .str s => isoDate s.toList
  | _ => false

/-- Modelled from the spec: `isIn(["ingreso", "egreso"])` of
express-validator on the text form of the value. -/
def isInTipos : JsVal → Bool
  | .str s => s = "ingreso" || s = "egreso"
  | _ => false

/-- Modelled from the spec: `optional()` of express-validator, which skips the
rest of the chain when the field is `undefined`. -/
def optional (p : JsVal → Bool) (v : JsVal) : Bool :=
  v = .undefined || p v

/-- Modelled from the spec: `matches(/^\d{4}-\d{2}$/)` of express-validator. -/
def matchesMes : List Char → Bool
  | [y1, y2, y3, y4, s1, m1, m2] =>
    y1.isDigit && y2.isDigit && y3.isDigit && y4.isDigit && s1 = '-'
      && m1.isDigit && m2.isDigit
  | _ => false

/-- Modelled from the spec: the text of an integer for `isInt()` of
express-validator, an optional sign and at least one digit; its value is what
`toInt()` puts in its place. -/
def readInt (cs : List Char) : Option Int :=
  let ds := (takeSign cs).2
  if ds.isEmpty || !ds.all Char.isDigit then none
  else some ((takeSign cs).1 * (digitsVal 0 ds : Int))

/-- Modelled from the spec: `isInt({ min })` and `isInt({ min, max })` of
express-validator ("an integer ≥1", "an integer in [1,100]"). -/
def isIntBetween (min : Int) (max : Option Int) (s : String) : Bool :=
  match readInt s.toList with
  | some n => decide (min ≤ n) && (match max with | some m => decide (n ≤ m) | none => true)
  | none => false

/-- An optional query parameter: validated only when present. -/
def optionalQuery (p : String → Bool) : Option String → Bool
  | none => true
  | some s => p s

/-- The entries one validator of a chain adds: none when it passes. -/
def check (ok : Bool) (path msg : String) : List FieldError :=
  if ok then [] else [⟨path, msg⟩]

/-- The validation chains of `GET /api/events` (lines 50-55). -/
def validateList (q : ListQuery) : List FieldError :=
  check (optionalQuery (fun s => s = "ingreso" || s = "egreso") q.tipo)
      "tipo" "Tipo must be \"ingreso\" or \"egreso\""
    ++ check (optionalQuery (fun s => matchesMes s.toList) q.mes)
      "mes" "Mes must be in YYYY-MM format"
    ++ check (optionalQuery (isIntBetween 1 none) q.page) "page" "Invalid value"
    ++ check (optionalQuery (isIntBetween 1 (some 100)) q.limit) "limit" "Invalid value"

/-- The validation chains of `POST /api/events` (lines 110-117). -/
def validateCreate (b : Body) : List FieldError :=
  check (notEmpty b.nombre) "nombre" "Name is required"
    ++ check (notEmpty b.cantidad) "cantidad" "Amount is required"
    ++ check (isFloatGt0 b.cantidad) "cantidad" "Amount must be > 0"
    ++ check (notEmpty b.fecha) "fecha" "Date is required"
    ++ check (isISO8601 b.fecha) "fecha" "Date must be ISO (YYYY-MM-DD)"
    ++ check (notEmpty b.tipo) "tipo" "Type is required"
    ++ check (isInTipos b.tipo) "tipo" "Invalid type"
    ++ check (optional isString b.descripcion) "descripcion" "Invalid value"
    ++ check (optional isString b.adjunto) "adjunto" "Invalid value"

/-- The validation chains of `PUT /api/events/:id` (lines 145-153). -/
def validateUpdate (id : JsVal) (b : Body) : List FieldError :=
  check (notEmpty id) "id" "Event ID is required!"
    ++ check (optional isString b.nombre) "nombre" "Name must be a string!"
    ++ check (optional isString b.descripcion) "descripcion" "Description must be a string!"
    ++ check (optional isFloatGt0 b.cantidad) "cantidad" "Amount must be > 0"
    ++ check (optional isISO8601 b.fecha) "fecha" "Date must be ISO (YYYY-MM-DD)"
    ++ check (optional isInTipos b.tipo) "tipo" "Invalid type"
    ++ check (optional isString b.adjunto) "adjunto" "Invalid value"

/-! ## Handlers -/

/-- The call `Math.max(x, ...xs)` on integers. -/
def mathMax (x : Int) (xs : List Int) : Int := xs.foldl max x

/-- The id the create handler computes (line 126):
`eventos.length > 0 ? Math.max(...eventos.map(event => event.id)) + 1 : 1`. -/
def nextId : List Event → Int
  | [] => 1
  | e :: es => mathMax e.id (es.map (fun event => event.id)) + 1

/-- An index argument of `Array.prototype.slice` made absolute: a negative one
counts from the end, and the result is clamped to the array. -/
def sliceIndex (len : Nat) (i : Int) : Nat :=
  if i < 0 then (len + i).toNat else min i.toNat len

/-- The call `xs.slice(start, end)`. -/
def jsSlice {α : Type} (xs : List α) (start stop : Int) : List α :=
  (xs.take (sliceIndex xs.length stop)).drop (sliceIndex xs.length start)

/-- The expression `v || d` for a query parameter that `toInt()` has turned into a number:
an absent parameter and `0` are falsy. A text that is no integer never gets
here, the chain has rejected it. -/
def orDefault (v : Option String) (d : Int) : Int :=
  match v with
  | none => d
  | some s =>
    match readInt s.toList with
    | some n => if n = 0 then d else n
    | none => d

/-- The `tipo` filter of line 68: `e.tipo === tipo`, applied when `tipo` is
truthy (present and not the empty text). -/
def filterTipo (tipo : Option String) (data : List Event) : List Event :=
  match tipo with
  | none => data
  | some t => if t.toList.isEmpty then data else data.filter (fun e => e.tipo = .str t)

/-- The test of line 69 on one event:
`typeof e.fecha === "string" && e.fecha.slice(0, 7) === mes`. The handler runs
it with a `mes` of seven ASCII characters (the chain has checked it), for which
the first seven UTF-16 units of `e.fecha` equal `mes` exactly when its first
seven characters do. -/
def fechaInMes (mes : String) (e : Event) : Bool :=
  match e.fecha with
  | .str f => f.toList.take 7 = mes.toList
  | _ => false

/-- The `mes` filter of line 69, applied when `mes` is truthy. -/
def filterMes (mes : Option String) (data : List Event) : List Event :=
  match mes with
  | none => data
  | some m => if m.toList.isEmpty then data else data.filter (fechaInMes m)

/-- Handler of `GET /api/events/all` (lines 43-46). -/
def getAllEvents (eventos : List Event) : List Event × Response :=
  (eventos, { status := 200, code := "OK", message := "All events retrieved successfully!",
              data := some (.all eventos eventos.length) })

/-- Handler of `GET /api/events` (lines 49-82). -/
def getEvents (eventos : List Event) (q : ListQuery) : List Event × Response :=
  let errors := validateList q
  if !errors.isEmpty then
    (eventos, { status := 400, code := "BR", message := "Invalid Data", errors := some errors })
  else
    let page := orDefault q.page 1
    let limit := orDefault q.limit 10
    let data := filterMes q.mes (filterTipo q.tipo eventos)
    let total := data.length
    let start := (page - 1) * limit
    let stop := start + limit
    let items := jsSlice data start stop
    (eventos, { status := 200, code := "OK", message := "Events retrieved successfully!",
                data := some (.page items page limit total) })

/-- Handler of `GET /api/events/query` (lines 86-106). The reply to a missing id is sent
with `res.json` alone, so under status 200. -/
def getEventByQuery (eventos : List Event) (id : JsVal) : List Event × Response :=
  if !notEmpty id then
    (eventos, { status := 200, code := "PF", message := "Event ID is required!" })
  else
    match eventos.find? (fun e => looseEq e.id id) with
    | none => (eventos, { status := 404, code := "NF", message := "Event not found!" })
    | some event =>
      (eventos, { status := 200, code := "OK", message := "Event found!",
                  data := some (.event event) })

/-- Handler of `POST /api/events` (lines 109-141). -/
def postEvent (eventos : List Event) (b : Body) : List Event × Response :=
  let errors := validateCreate b
  if !errors.isEmpty then
    (eventos, { status := 400, code := "BR", message := "Invalid Data", errors := some errors })
  else
    let nextEvent : Event :=
      { id := nextId eventos, nombre := b.nombre, descripcion := b.descripcion,
        cantidad := toNumber b.cantidad, fecha := b.fecha, tipo := b.tipo,
        adjunto := b.adjunto }
    (eventos ++ [nextEvent],
      { status := 201, code := "OK", message := "Event created successfully!",
        data := some (.event nextEvent) })

/-- The assignments of lines 170-175 on the event found. -/
def applyUpdate (event : Event) (b : Body) : Event :=
  { id := event.id,
    nombre := if b.nombre ≠ .undefined then b.nombre else event.nombre,
    descripcion := if b.descripcion ≠ .undefined then b.descripcion else event.descripcion,
    cantidad := if b.cantidad ≠ .undefined then toNumber b.cantidad else event.cantidad,
    fecha := if b.fecha ≠ .undefined then b.fecha else event.fecha,
    tipo := if b.tipo ≠ .undefined then b.tipo else event.tipo,
    adjunto := if b.adjunto ≠ .undefined then b.adjunto else event.adjunto }

/-- The collection after the object `find` returned (the first element that
satisfies `p`) has been mutated in place by `f`. -/
def assignFirst (p : Event → Bool) (f : Event → Event) : List Event → List Event
  | [] => []
  | e :: es => if p e then f e :: es else e :: assignFirst p f es

/-- Handler of `PUT /api/events/:id` (lines 143-180). -/
def putEvent (eventos : List Event) (id : JsVal) (b : Body) : List Event × Response :=
  let errors := validateUpdate id b
  if !errors.isEmpty then
    (eventos, { status := 400, code := "BR", message := "Invalid Data", errors := some errors })
  else
    match eventos.find? (fun e => looseEq e.id id) with
    | none => (eventos, { status := 404, code := "NF", message := "Event not found!" })
    | some event =>
      (assignFirst (fun e => looseEq e.id id) (fun e => applyUpdate e b) eventos,
        { status := 200, code := "OK", message := "Event updated successfully!",
          data := some (.event (applyUpdate event b)) })

/-- Handler of `DELETE /api/events/:id` (lines 182-192). -/
def deleteEvent (eventos : List Event) (id : JsVal) : List Event × Response :=
  match eventos.find? (fun e => looseEq e.id id) with
  | some event =>
    (eventos.filter (fun e => !looseEq e.id id),
      { status := 200, code := "OK", message := "Event deleted successfully!",
        data := some (.event event) })
  | none => (eventos, { status := 404, code := "PF", message := "Event not found!" })

/-- A request to one of the six event routes. -/
inductive Request where
  | getAll
  | list (q : ListQuery)
  | getById (id : JsVal)
  | create (b : Body)
  | update (id : JsVal) (b : Body)
  | delete (id : JsVal)

/-- Dispatches a request to its handler. -/
def handle (eventos : List Event) : Request → List Event × Response
  | .getAll => getAllEvents eventos
  | .list q => getEvents eventos q
  | .getById id => getEventByQuery eventos id
  | .create b => postEvent eventos b
  | .update id b => putEvent eventos id b
  | .delete id => deleteEvent eventos id

/-- The collection after a sequence of requests, served one after the other. -/
def run (eventos : List Event) (reqs : List Request) : List Event :=
  reqs.foldl (fun evs r => (handle evs r).1) eventos

/-! ## Definitions used by the statements -/

/-- The ids of a collection, in order. -/
def ids (eventos : List Event) : List Int := eventos.map (fun e => e.id)

/-- The payload of the specification's create scenario. -/
def bonoBody : Body :=
  { nombre := .str "Bono", cantidad := .num 200, fecha := .str "2024-12-10",
    tipo := .str "ingreso" }

/-- The list `GET /api/events` paginates: `eventos` after the two filters of
lines 67-69. -/
def filteredData (eventos : List Event) (q : ListQuery) : List Event :=
  filterMes q.mes (filterTipo q.tipo eventos)

/-- The integer a query parameter asks for, in the words of the specification:
the integer its text denotes, and the default when the parameter is absent. -/
def requestedInt (v : Option String) (d : Int) : Int :=
  match v with
  | none => d
  | some s => (readInt s.toList).getD 0

/-- The page a query asks for: 1 when `page` is absent. -/
def requestedPage (q : ListQuery) : Int := requestedInt q.page 1

/-- The limit a query asks for: 10 when `limit` is absent. -/
def requestedLimit (q : ListQuery) : Int := requestedInt q.limit 10

/-- The filter of the specification on one event: `tipo` is absent or equals
the event's `tipo`, and `mes` is absent or equals the first seven characters of
the event's `fecha`. -/
def matchesFilter (q : ListQuery) (e : Event) : Bool :=
  (match q.tipo with
    | none => true
    | some t => decide (e.tipo = .str t))
  && (match q.mes with
    | none => true
    | some m =>
      match e.fecha with
      | .str f => decide (f.toList.take 7 = m.toList)
      | _ => false)

/-- The value of a field after an update, in the words of the specification:
the payload's value when the payload has the field, the previous value when it
has not. -/
def updatedField (previous payload : JsVal) : JsVal :=
  if payload = .undefined then previous else payload

/-- The payload of the specification's update scenario: `cantidad` alone. -/
def soloCantidad : Body := { cantidad := .num 650 }

/-- The object `{id: id, ...fields}` of the round-trip sentence of the
specification, for a payload with no other key than the six fields. -/
def spreadEvent (id : Int) (fields : Body) : Event :=
  { id := id, nombre := fields.nombre, descripcion := fields.descripcion,
    cantidad := fields.cantidad, fecha := fields.fecha, tipo := fields.tipo,
    adjunto := fields.adjunto }

/-- The event the create handler builds from a payload (lines 128-136). -/
def createdEvent (eventos : List Event) (b : Body) : Event :=
  { id := nextId eventos, nombre := b.nombre, descripcion := b.descripcion,
    cantidad := toNumber b.cantidad, fecha := b.fecha, tipo := b.tipo,
    adjunto := b.adjunto }

/-- The create scenario with `cantidad` sent as text. -/
def bonoTextBody : Body :=
  { nombre := .str "Bono", cantidad := .str "200", fecha := .str "2024-12-10",
    tipo := .str "ingreso" }

/-- The event the create scenario adds to the seeded collection. -/
def bonoEvent : Event :=
  { id := 3, nombre := .str "Bono", descripcion := .undefined, cantidad := .num 200,
    fecha := .str "2024-12-10", tipo := .str "ingreso", adjunto := .undefined }

/-- The characters a signed decimal literal is made of. -/
def numChar (c : Char) : Bool :=
  c.isDigit || c = '+' || c = '-' || c = '.' || c = 'e' || c = 'E'

/-- Data model, `nombre`: non-empty text. -/
def nonEmptyText : JsVal → Bool
  | .str s => !s.toList.isEmpty
  | _ => false

/-- Data model, `cantidad`: a number strictly greater than 0. An infinity is a
number for JavaScript, and `Infinity` is greater than 0. -/
def positiveNumber : JsVal → Bool
  | .num q => decide (0 < q)
  | .inf negative => !negative
  | _ => false

/-- Data model, `fecha`: a text of the form `YYYY-MM-DD`. -/
def wellFormedDate : JsVal → Bool
  | .str s => isoDate s.toList
  | _ => false

/-- Data model, `tipo`: one of the two enumerated texts. -/
def enumeratedTipo : JsVal → Bool
  | .str s => s = "ingreso" || s = "egreso"
  | _ => false

/-- The field constraints of the data model on one event, as the specification
states them. -/
def dataModelOk (e : Event) : Bool :=
  nonEmptyText e.nombre && positiveNumber e.cantidad && wellFormedDate e.fecha
    && enumeratedTipo e.tipo

/-- What the handlers keep of `nombre`: it is a text (an update accepts every
text) or a value whose text form is not empty (a create rejects only that). -/
def storedNombre (v : JsVal) : Bool := isString v || notEmpty v

/-- The field constraints every stored event keeps: on `nombre`, `cantidad`
and `tipo`. The form of `fecha` is not among them. -/
def storedOk (e : Event) : Bool :=
  storedNombre e.nombre && positiveNumber e.cantidad && enumeratedTipo e.tipo

/-- A create payload whose `cantidad` is a text beyond the range of the
doubles. -/
def bonoEnormeBody : Body :=
  { nombre := .str "Bono", cantidad := .str "1e400", fecha := .str "2024-12-10",
    tipo := .str "ingreso" }

/-- An update payload that sets `nombre` to the empty text. -/
def nombreVacio : Body := { nombre := .str "" }

/-- A field is missing: the key is absent or holds `null`. -/
def missing : JsVal → Bool
  | .undefined => true
  | .null => true
  | _ => false

/-- The create rule for `nombre` is violated: missing or empty. -/
def nombreViolates (v : JsVal) : Bool := missing v || decide (v = .str "")

/-- The create rule for `cantidad` is violated: missing, non-numeric (`Number`
of it is `NaN`) or not greater than 0. -/
def cantidadViolates (v : JsVal) : Bool :=
  missing v ||
    (match toNumber v with
      | .num q => decide (q ≤ 0)
      | .inf negative => negative
      | _ => true)

/-- The create rule for `fecha` is violated: missing or not an ISO date. -/
def fechaViolates (v : JsVal) : Bool := missing v || !wellFormedDate v

/-- The create rule for `tipo` is violated: missing or not one of the two
enumerated texts. -/
def tipoViolates (v : JsVal) : Bool := missing v || !enumeratedTipo v

/-- The payload of the specification's validation scenario. -/
def invalidBody : Body :=
  { nombre := .str "", cantidad := .num (-5), fecha := .str "not-a-date", tipo := .str "x" }

/-- The decimal text of an integer id: its digits, after a `-` when it is
negative; what `String(n)` is for an integer `n`. -/
def decimalText (n : Int) : String := n.repr

/-- The shape of a response envelope: its HTTP status, its code, and whether it
carries a `data` member and an `errors` member. -/
def envelopeIs (r : Response) (status : Nat) (code : String) (hasData hasErrors : Bool) :
    Bool :=
  decide (r.status = status) && decide (r.code = code) && (r.data.isSome == hasData)
    && (r.errors.isSome == hasErrors)

/-- Some stored event has the id of the request (`e.id == id`). -/
def knownId (eventos : List Event) (id : JsVal) : Bool :=
  eventos.any (fun e => looseEq e.id id)

/-- The form of `mes` in the words of the specification: four digits, a hyphen
and two digits, and nothing else. -/
def yearMonth (cs : List Char) : Bool :=
  decide (cs.length = 7) && (cs.take 4).all Char.isDigit
    && decide ((cs.drop 4).head? = some '-') && (cs.drop 5).all Char.isDigit

/-- The `tipo` parameter violates its rule: present and neither of the two
enumerated texts. -/
def tipoParamBad (q : ListQuery) : Bool :=
  match q.tipo with
  | none => false
  | some t => decide (t ≠ "ingreso") && decide (t ≠ "egreso")

/-- The `mes` parameter violates its rule: present and not of the form
`YYYY-MM`. -/
def mesParamBad (q : ListQuery) : Bool :=
  match q.mes with
  | none => false
  | some m => !yearMonth m.toList

/-- The `page` parameter violates its rule: present and not the text of an
integer that is at least 1. -/
def pageParamBad (q : ListQuery) : Bool :=
  match q.page with
  | none => false
  | some s =>
    match readInt s.toList with
    | some n => decide (n < 1)
    | none => true

/-- The `limit` parameter violates its rule: present and not the text of an
integer from 1 to 100. -/
def limitParamBad (q : ListQuery) : Bool :=
  match q.limit with
  | none => false
  | some s =>
    match readInt s.toList with
    | some n => decide (n < 1) || decide (100 < n)
    | none => true

/-- A query in which each of the four parameters violates its rule. -/
def invalidQuery : ListQuery :=
  { tipo := some "x", mes := some "2024-1", page := some "0", limit := some "101" }

/-- An update payload the validator rejects: a negative `cantidad`. -/
def cantidadNegativa : Body := { cantidad := .num (-5) }

/-- The module-level variables of `src/index.js`: `eventos` (line 16) and
`nextId` (line 34). -/
structure Module where
  eventos : List Event
  nextId : Int
deriving DecidableEq, Repr

/-- The module as the program starts: the seeded collection and `nextId = 3`. -/
def initialModule : Module := { eventos := seedEventos, nextId := 3 }

/-- One request served on the module state. No handler reads or assigns the
module-level `nextId`: the only use of the name, in the create handler, is the
constant declared on line 126, which shadows it. -/
def serve (m : Module) (r : Request) : Module × Response :=
  ({ eventos := (handle m.eventos r).1, nextId := m.nextId }, (handle m.eventos r).2)

/-- The module after a sequence of requests. -/
def serveAll (m : Module) (reqs : List Request) : Module :=
  reqs.foldl (fun s r => (serve s r).1) m

/-- The id of the event a response carries, if it carries one. -/
def responseId (r : Response) : Option Int :=
  match r.data with
  | some (.event e) => some e.id
  | _ => none

/-- The events a response carries (none when it has no data). -/
def responseEvents (r : Response) : List Event :=
  match r.data with
  | some (.event e) => [e]
  | some (.all events _) => events
  | some (.page events _ _ _) => events
  | none => []

/-- The query `q` asking for page `p`: its `page` parameter is the decimal
text of `p`. -/
def pageQuery (q : ListQuery) (p : Nat) : ListQuery :=
  { q with page := some (decimalText (p : Int)) }

/-- The events the list route returns for page `p` of the query `q`. -/
def pageEvents (eventos : List Event) (q : ListQuery) (p : Nat) : List Event :=
  responseEvents (getEvents eventos (pageQuery q p)).2

/-- The number of pages of `total` events with `limit` events a page:
`total / limit` rounded up. -/
def pageCount (total limit : Nat) : Nat := (total + limit - 1) / limit

/-- An event of tipo "ingreso" of January 2025. -/
def eneroEvent : Event :=
  { id := 4, nombre := .str "Sueldo enero", descripcion := .undefined, cantidad := .num 1500,
    fecha := .str "2025-01-05", tipo := .str "ingreso", adjunto := .undefined }

/-- A collection of four events: of those of December 2024 two are of tipo
"ingreso" and one of tipo "egreso", and the fourth, of tipo "ingreso", is of
January 2025. -/
def cuatroEventos : List Event := [sueldoEvent, rentaEvent, bonoEvent, eneroEvent]

/-- The query for the events of tipo "ingreso" of December 2024, one event a
page. -/
def ingresosDeUno : ListQuery :=
  { tipo := some "ingreso", mes := some "2024-12", limit := some "1" }

/-- The query for page 2 of the events of tipo "ingreso" of December 2024, one
event a page. -/
def ingresosPaginaDos : ListQuery :=
  { tipo := some "ingreso", mes := some "2024-12", page := some "2", limit := some "1" }

/-! ## Lemmas on the handlers -/

theorem mathMax_ge_init (x : Int) (xs : List Int) : x ≤ mathMax x xs := by
  induction xs generalizing x with
  | nil => simp [mathMax]
  | cons y ys ih =>
    have h := ih (max x y)
    simp only [mathMax, List.foldl_cons] at h ⊢
    exact le_trans (le_max_left x y) h

theorem mathMax_ge_mem (x : Int) (xs : List Int) : ∀ y ∈ xs, y ≤ mathMax x xs := by
  induction xs generalizing x with
  | nil => simp
  | cons z zs ih =>
    intro y hy
    simp only [mathMax, List.foldl_cons]
    rcases List.mem_cons.mp hy with rfl | hmem
    · exact le_trans (le_max_right x y) (mathMax_ge_init (max x y) zs)
    · exact ih (max x z) y hmem

theorem mathMax_mem (x : Int) (xs : List Int) : mathMax x xs = x ∨ mathMax x xs ∈ xs := by
  induction xs generalizing x with
  | nil => simp [mathMax]
  | cons z zs ih =>
    simp only [mathMax, List.foldl_cons, List.mem_cons]
    rcases ih (max x z) with h | h
    · simp only [mathMax] at h
      rcases max_choice x z with hx | hz
      · left; rw [h, hx]
      · right; left; rw [h, hz]
    · right; right; exact h

theorem nextId_gt (eventos : List Event) : ∀ e ∈ eventos, e.id < nextId eventos := by
  cases eventos with
  | nil => simp
  | cons a as =>
    intro e he
    simp only [nextId]
    rcases List.mem_cons.mp he with rfl | hmem
    · exact Int.lt_add_one_iff.mpr (mathMax_ge_init _ _)
    · exact Int.lt_add_one_iff.mpr
        (mathMax_ge_mem _ _ e.id (List.mem_map.mpr ⟨e, hmem, rfl⟩))

theorem nextId_pred_mem (eventos : List Event) (h : eventos ≠ []) :
    ∃ e ∈ eventos, nextId eventos = e.id + 1 := by
  cases eventos with
  | nil => exact absurd rfl h
  | cons a as =>
    simp only [nextId]
    rcases mathMax_mem a.id (as.map (fun event => event.id)) with hm | hm
    · exact ⟨a, List.mem_cons_self _ _, by rw [hm]⟩
    · obtain ⟨e, he, hid⟩ := List.mem_map.mp hm
      exact ⟨e, List.mem_cons_of_mem _ he, by rw [← hid]⟩

theorem postEvent_accepted (eventos : List Event) (b : Body) (h : validateCreate b = []) :
    postEvent eventos b =
      (eventos ++ [{ id := nextId eventos, nombre := b.nombre, descripcion := b.descripcion,
                     cantidad := toNumber b.cantidad, fecha := b.fecha, tipo := b.tipo,
                     adjunto := b.adjunto }],
        { status := 201, code := "OK", message := "Event created successfully!",
          data := some (.event { id := nextId eventos, nombre := b.nombre,
                                 descripcion := b.descripcion,
                                 cantidad := toNumber b.cantidad, fecha := b.fecha,
                                 tipo := b.tipo, adjunto := b.adjunto }) }) := by
  simp [postEvent, h]

theorem postEvent_rejected (eventos : List Event) (b : Body) (h : validateCreate b ≠ []) :
    postEvent eventos b =
      (eventos, { status := 400, code := "BR", message := "Invalid Data",
                  errors := some (validateCreate b) }) := by
  simp [postEvent, h]

/-! ## Claims -/

/-- C1: for every collection and every create payload the validator accepts,
the create handler appends one new event after the unchanged earlier elements;
its id is 1 on an empty collection and otherwise one more than the greatest id
of the collection; the answer is HTTP 201 with code OK and that event. -/
theorem create_assigns_next_id (eventos : List Event) (b : Body)
    (h : validateCreate b = []) :
    ∃ ev : Event,
      (postEvent eventos b).1 = eventos ++ [ev] ∧
      (eventos = [] → ev.id = 1) ∧
      (eventos ≠ [] → (∃ e ∈ eventos, ev.id = e.id + 1) ∧ ∀ e ∈ eventos, e.id + 1 ≤ ev.id) ∧
      (postEvent eventos b).2.status = 201 ∧
      (postEvent eventos b).2.code = "OK" ∧
      (postEvent eventos b).2.data = some (.event ev) ∧
      (postEvent eventos b).2.errors = none := by
  rw [postEvent_accepted eventos b h]
  refine ⟨_, rfl, ?_, ?_, rfl, rfl, rfl, rfl⟩
  · intro he
    subst he
    rfl
  · intro he
    exact ⟨nextId_pred_mem eventos he, fun e hmem => nextId_gt eventos e hmem⟩

/-- C1 at the seeded collection: creating "Bono" is accepted and the collection
then holds the ids 1, 2, 3. -/
theorem create_assigns_next_id_witness :
    ids (postEvent seedEventos bonoBody).1 = [1, 2, 3] ∧
    ∃ ev : Event,
      (postEvent seedEventos bonoBody).1 = seedEventos ++ [ev] ∧
      (seedEventos = [] → ev.id = 1) ∧
      (seedEventos ≠ [] →
        (∃ e ∈ seedEventos, ev.id = e.id + 1) ∧ ∀ e ∈ seedEventos, e.id + 1 ≤ ev.id) ∧
      (postEvent seedEventos bonoBody).2.status = 201 ∧
      (postEvent seedEventos bonoBody).2.code = "OK" ∧
      (postEvent seedEventos bonoBody).2.data = some (.event ev) ∧
      (postEvent seedEventos bonoBody).2.errors = none :=
  ⟨by decide, create_assigns_next_id seedEventos bonoBody (by decide)⟩

theorem ids_assignFirst (p : Event → Bool) (f : Event → Event)
    (hf : ∀ e, (f e).id = e.id) (eventos : List Event) :
    ids (assignFirst p f eventos) = ids eventos := by
  induction eventos with
  | nil => rfl
  | cons a as ih =>
    simp only [assignFirst]
    split
    · simp [ids, hf]
    · simp only [ids, List.map_cons] at ih ⊢
      rw [ih]

theorem length_assignFirst (p : Event → Bool) (f : Event → Event) (eventos : List Event) :
    (assignFirst p f eventos).length = eventos.length := by
  induction eventos with
  | nil => rfl
  | cons a as ih =>
    simp only [assignFirst]
    split
    · simp
    · simp [ih]

theorem ids_postEvent (eventos : List Event) (b : Body) :
    (postEvent eventos b).1 = eventos ∨
      ∃ ev : Event, ev.id = nextId eventos ∧ (postEvent eventos b).1 = eventos ++ [ev] := by
  by_cases h : validateCreate b = []
  · right
    rw [postEvent_accepted eventos b h]
    exact ⟨_, rfl, rfl⟩
  · left
    rw [postEvent_rejected eventos b h]

theorem putEvent_store (eventos : List Event) (id : JsVal) (b : Body) :
    (putEvent eventos id b).1 = eventos ∨
      (putEvent eventos id b).1 =
        assignFirst (fun e => looseEq e.id id) (fun e => applyUpdate e b) eventos := by
  unfold putEvent
  simp only
  split
  · left; rfl
  · split
    · left; rfl
    · right; rfl

theorem deleteEvent_store (eventos : List Event) (id : JsVal) :
    (deleteEvent eventos id).1 = eventos ∨
      (deleteEvent eventos id).1 = eventos.filter (fun e => !looseEq e.id id) := by
  unfold deleteEvent
  split
  · right; rfl
  · left; rfl

theorem nodup_ids_append_next (eventos : List Event) (ev : Event)
    (hid : ev.id = nextId eventos) (h : (ids eventos).Nodup) :
    (ids (eventos ++ [ev])).Nodup := by
  simp only [ids, List.map_append, List.map_cons, List.map_nil]
  refine List.Nodup.append h (List.nodup_singleton _) ?_
  intro x hx hy
  rw [List.mem_singleton] at hy
  obtain ⟨e, he, rfl⟩ := List.mem_map.mp hx
  have hlt := nextId_gt eventos e he
  omega

theorem nodup_ids_handle (eventos : List Event) (r : Request) (h : (ids eventos).Nodup) :
    (ids (handle eventos r).1).Nodup := by
  cases r with
  | getAll => exact h
  | list q =>
    simp only [handle, getEvents]
    split <;> exact h
  | getById id =>
    simp only [handle, getEventByQuery]
    split
    · exact h
    · split <;> exact h
  | create b =>
    simp only [handle]
    rcases ids_postEvent eventos b with hs | ⟨ev, hid, hs⟩
    · rw [hs]; exact h
    · rw [hs]; exact nodup_ids_append_next eventos ev hid h
  | update id b =>
    simp only [handle]
    rcases putEvent_store eventos id b with hs | hs
    · rw [hs]; exact h
    · rw [hs, ids_assignFirst _ (fun e => applyUpdate e b) (fun _ => rfl)]; exact h
  | delete id =>
    simp only [handle]
    rcases deleteEvent_store eventos id with hs | hs
    · rw [hs]; exact h
    · rw [hs]
      exact List.Nodup.sublist (List.Sublist.map _ (List.filter_sublist _)) h

theorem run_invariant (P : List Event → Prop)
    (hstep : ∀ evs r, P evs → P (handle evs r).1) :
    ∀ (reqs : List Request) (eventos : List Event), P eventos → P (run eventos reqs) := by
  intro reqs
  induction reqs with
  | nil => intro eventos h; exact h
  | cons r rs ih =>
    intro eventos h
    simp only [run, List.foldl_cons]
    exact ih _ (hstep eventos r h)

/-- C2: from the seeded collection, after every finite sequence of requests,
accepted or rejected, no two events of the collection have the same id. -/
theorem ids_unique_reachable (reqs : List Request) :
    (ids (run seedEventos reqs)).Nodup :=
  run_invariant (fun evs => (ids evs).Nodup) nodup_ids_handle reqs seedEventos (by decide)

theorem check_eq_nil (ok : Bool) (path msg : String) : check ok path msg = [] ↔ ok = true := by
  cases ok <;> simp [check]

theorem validateList_nil (q : ListQuery) (h : validateList q = []) :
    optionalQuery (fun s => s = "ingreso" || s = "egreso") q.tipo = true ∧
    optionalQuery (fun s => matchesMes s.toList) q.mes = true ∧
    optionalQuery (isIntBetween 1 none) q.page = true ∧
    optionalQuery (isIntBetween 1 (some 100)) q.limit = true := by
  simpa [validateList, List.append_eq_nil, check_eq_nil, and_assoc] using h

theorem matchesMes_ne_nil (cs : List Char) (h : matchesMes cs = true) : cs.isEmpty = false := by
  cases cs with
  | nil => simp [matchesMes] at h
  | cons c cs => rfl

theorem isIntBetween_some (min : Int) (max : Option Int) (s : String)
    (h : isIntBetween min max s = true) :
    ∃ n : Int, readInt s.toList = some n ∧ min ≤ n ∧ ∀ m, max = some m → n ≤ m := by
  unfold isIntBetween at h
  split at h
  · rename_i n hr
    simp only [Bool.and_eq_true, decide_eq_true_eq] at h
    refine ⟨n, hr, h.1, ?_⟩
    intro m hm
    subst hm
    simpa using h.2
  · exact absurd h (by simp)

theorem jsSlice_nonneg {α : Type} (xs : List α) (a b : Nat) :
    jsSlice xs (a : Int) (b : Int) = (xs.take b).drop a := by
  have ha : sliceIndex xs.length (a : Int) = min a xs.length := by
    simp [sliceIndex]
  have hb : sliceIndex xs.length (b : Int) = min b xs.length := by
    simp [sliceIndex]
  unfold jsSlice
  rw [ha, hb]
  have htake : xs.take (min b xs.length) = xs.take b := by
    rcases Nat.le_total b xs.length with hle | hle
    · rw [Nat.min_eq_left hle]
    · rw [Nat.min_eq_right hle, List.take_of_length_le (Nat.le_refl _),
        List.take_of_length_le hle]
  rw [htake]
  rcases Nat.le_total a xs.length with hle | hle
  · rw [Nat.min_eq_left hle]
  · rw [Nat.min_eq_right hle]
    have h1 : (xs.take b).length ≤ xs.length := by
      rw [List.length_take]; exact Nat.min_le_right _ _
    rw [List.drop_eq_nil_of_le h1, List.drop_eq_nil_of_le (Nat.le_trans h1 hle)]

theorem slice_length {α : Type} (xs : List α) (a b : Nat) :
    ((xs.take b).drop a).length = min b xs.length - a := by
  simp [List.length_drop, List.length_take]

theorem slice_getElem? {α : Type} (xs : List α) (a b i : Nat)
    (h : i < ((xs.take b).drop a).length) :
    ((xs.take b).drop a)[i]? = xs[a + i]? := by
  rw [slice_length] at h
  rw [List.getElem?_drop, List.getElem?_take_of_lt (by omega)]

theorem orDefault_valid (v : Option String) (d : Int) (max : Option Int) (hd : 1 ≤ d)
    (h : optionalQuery (isIntBetween 1 max) v = true) :
    orDefault v d = requestedInt v d ∧
    1 ≤ orDefault v d ∧ (∀ m, max = some m → d ≤ m → orDefault v d ≤ m) := by
  cases v with
  | none => exact ⟨rfl, hd, fun m _ hm => hm⟩
  | some s =>
    obtain ⟨n, hn, h1, hmax⟩ := isIntBetween_some 1 max s h
    have hne : n ≠ 0 := by omega
    have ho : orDefault (some s) d = n := by
      simp only [orDefault, hn]
      exact if_neg hne
    rw [ho]
    refine ⟨?_, h1, fun m hm _ => hmax m hm⟩
    simp only [requestedInt, hn, Option.getD_some]

theorem getEvents_accepted (eventos : List Event) (q : ListQuery) (h : validateList q = []) :
    getEvents eventos q =
      (eventos, { status := 200, code := "OK", message := "Events retrieved successfully!",
                  data := some (.page
                    (jsSlice (filteredData eventos q)
                      ((orDefault q.page 1 - 1) * orDefault q.limit 10)
                      ((orDefault q.page 1 - 1) * orDefault q.limit 10 + orDefault q.limit 10))
                    (orDefault q.page 1) (orDefault q.limit 10)
                    (filteredData eventos q).length) }) := by
  simp [getEvents, h, filteredData]

theorem filterTipo_valid (tipo : Option String) (data : List Event)
    (h : optionalQuery (fun s => s = "ingreso" || s = "egreso") tipo = true) :
    filterTipo tipo data = data.filter (fun e =>
      match tipo with
      | none => true
      | some t => decide (e.tipo = .str t)) := by
  cases tipo with
  | none => simp [filterTipo]
  | some t =>
    have hne : t.toList.isEmpty = false := by
      simp only [optionalQuery, Bool.or_eq_true, decide_eq_true_eq] at h
      rcases h with rfl | rfl <;> rfl
    simp only [filterTipo, hne]
    rfl

theorem filterMes_valid (mes : Option String) (data : List Event)
    (h : optionalQuery (fun s => matchesMes s.toList) mes = true) :
    filterMes mes data = data.filter (fun e =>
      match mes with
      | none => true
      | some m =>
        match e.fecha with
        | .str f => decide (f.toList.take 7 = m.toList)
        | _ => false) := by
  cases mes with
  | none => simp [filterMes]
  | some m =>
    have hne : m.toList.isEmpty = false := matchesMes_ne_nil _ h
    simp only [filterMes, hne]
    rfl

theorem filteredData_valid (eventos : List Event) (q : ListQuery) (hq : validateList q = []) :
    filteredData eventos q = eventos.filter (matchesFilter q) := by
  obtain ⟨htipo, hmes, _, _⟩ := validateList_nil q hq
  unfold filteredData
  rw [filterTipo_valid q.tipo eventos htipo, filterMes_valid q.mes _ hmes, List.filter_filter]
  apply List.filter_congr
  intro e _
  simp only [matchesFilter]
  exact Bool.and_comm _ _

theorem validateList_drop_mes (q : ListQuery) (hq : validateList q = []) :
    validateList { q with mes := none } = [] := by
  obtain ⟨htipo, _, hpage, hlimit⟩ := validateList_nil q hq
  simp only [validateList, List.append_eq_nil, check_eq_nil]
  exact ⟨⟨⟨htipo, rfl⟩, hpage⟩, hlimit⟩

theorem validateList_drop_tipo (q : ListQuery) (hq : validateList q = []) :
    validateList { q with tipo := none } = [] := by
  obtain ⟨_, hmes, hpage, hlimit⟩ := validateList_nil q hq
  simp only [validateList, List.append_eq_nil, check_eq_nil]
  exact ⟨⟨⟨rfl, hmes⟩, hpage⟩, hlimit⟩

/-- C3: for every collection and every accepted query asking for page `P` with
limit `L` (an absent page is 1, an absent limit is 10), `P` is at least 1 and
`L` is between 1 and 100, and the list handler answers HTTP 200 with code OK,
the events at the indices from `(P-1)*L` up to but not including
`min (P*L) total` of the filtered list (the events of the collection that
match the filter of the query, in collection order), in their order, and
`total`, the length of that filtered list and not of the collection; when
`(P-1)*L` is at least `total` the events are the empty list. The collection is
unchanged. -/
theorem list_returns_page (eventos : List Event) (q : ListQuery) (P L : Nat)
    (hq : validateList q = []) (hP : requestedPage q = P) (hL : requestedLimit q = L) :
    1 ≤ P ∧ 1 ≤ L ∧ L ≤ 100 ∧ (q.page = none → P = 1) ∧ (q.limit = none → L = 10) ∧
    ∃ items : List Event,
      getEvents eventos q =
        (eventos, { status := 200, code := "OK", message := "Events retrieved successfully!",
                    data := some (.page items P L (eventos.filter (matchesFilter q)).length) }) ∧
      items = ((eventos.filter (matchesFilter q)).take (P * L)).drop ((P - 1) * L) ∧
      items.length = min (P * L) (eventos.filter (matchesFilter q)).length - (P - 1) * L ∧
      (∀ i, i < items.length →
        items[i]? = (eventos.filter (matchesFilter q))[(P - 1) * L + i]?) ∧
      ((eventos.filter (matchesFilter q)).length ≤ (P - 1) * L → items = []) := by
  rw [← filteredData_valid eventos q hq]
  obtain ⟨_, _, hpage, hlimit⟩ := validateList_nil q hq
  obtain ⟨hp1, hp2, _⟩ := orDefault_valid q.page 1 none (le_refl 1) hpage
  obtain ⟨hl1, hl2, hl3⟩ := orDefault_valid q.limit 10 (some 100) (by decide) hlimit
  have hpP : orDefault q.page 1 = (P : Int) := by rw [hp1, ← hP]; rfl
  have hlL : orDefault q.limit 10 = (L : Int) := by rw [hl1, ← hL]; rfl
  have hP1 : 1 ≤ P := by rw [hpP] at hp2; exact_mod_cast hp2
  have hL1 : 1 ≤ L := by rw [hlL] at hl2; exact_mod_cast hl2
  have hL100 : L ≤ 100 := by
    have := hl3 100 rfl (by decide)
    rw [hlL] at this
    exact_mod_cast this
  refine ⟨hP1, hL1, hL100, ?_, ?_, ?_⟩
  · intro hnone
    have : requestedPage q = 1 := by simp [requestedPage, requestedInt, hnone]
    rw [this] at hP
    exact_mod_cast hP.symm
  · intro hnone
    have : requestedLimit q = 10 := by simp [requestedLimit, requestedInt, hnone]
    rw [this] at hL
    exact_mod_cast hL.symm
  · obtain ⟨k, rfl⟩ : ∃ k, P = k + 1 := ⟨P - 1, by omega⟩
    have hstart : ((((k + 1 : Nat) : Int) - 1) * (L : Int)) = ((k * L : Nat) : Int) := by
      push_cast; ring
    have hstop : ((k * L : Nat) : Int) + (L : Int) = (((k + 1) * L : Nat) : Int) := by
      push_cast; ring
    refine ⟨((filteredData eventos q).take ((k + 1) * L)).drop (k * L), ?_, ?_, ?_, ?_, ?_⟩
    · rw [getEvents_accepted eventos q hq, hpP, hlL, hstart, hstop, jsSlice_nonneg]
    · simp
    · simp [slice_length]
    · intro i hi
      simpa using slice_getElem? (filteredData eventos q) (k * L) ((k + 1) * L) i hi
    · intro hlen
      apply List.drop_eq_nil_of_le
      rw [List.length_take]
      simp only [Nat.add_sub_cancel] at hlen
      exact Nat.le_trans (Nat.min_le_right _ _) hlen

/-- C3 on four events, of which two are of tipo "ingreso" and of December
2024: page 2 of the query `tipo=ingreso&mes=2024-12` with limit 1 is the second
of these two, and the total is 2, not the 4 of the collection. -/
theorem list_returns_page_witness :
    cuatroEventos.length = 4 ∧
    cuatroEventos.filter (matchesFilter ingresosPaginaDos) = [sueldoEvent, bonoEvent] ∧
    (getEvents cuatroEventos ingresosPaginaDos).2.data = some (.page [bonoEvent] 2 1 2) ∧
    (1 ≤ 2 ∧ 1 ≤ 1 ∧ 1 ≤ 100 ∧ (ingresosPaginaDos.page = none → 2 = 1) ∧
      (ingresosPaginaDos.limit = none → 1 = 10) ∧
      ∃ items : List Event,
        getEvents cuatroEventos ingresosPaginaDos =
          (cuatroEventos,
            { status := 200, code := "OK", message := "Events retrieved successfully!",
              data := some (.page items (2 : Nat) (1 : Nat)
                (cuatroEventos.filter (matchesFilter ingresosPaginaDos)).length) }) ∧
        items = ((cuatroEventos.filter (matchesFilter ingresosPaginaDos)).take (2 * 1)).drop
          ((2 - 1) * 1) ∧
        items.length = min (2 * 1) (cuatroEventos.filter (matchesFilter ingresosPaginaDos)).length
          - (2 - 1) * 1 ∧
        (∀ i, i < items.length → items[i]? =
          (cuatroEventos.filter (matchesFilter ingresosPaginaDos))[(2 - 1) * 1 + i]?) ∧
        ((cuatroEventos.filter (matchesFilter ingresosPaginaDos)).length ≤ (2 - 1) * 1 →
          items = [])) :=
  ⟨by decide, by decide, by decide,
    list_returns_page cuatroEventos ingresosPaginaDos 2 1 (by decide) (by decide) (by decide)⟩

/-- C4: for every collection and every accepted query, the list that the list
handler paginates, and whose length it reports as total, is the sub-list, in
collection order, of the events `e` with (`tipo` absent or `e.tipo` equal to
`tipo`) and (`mes` absent or the first seven characters of `e.fecha` equal to
`mes`); with `tipo` alone it holds exactly the events of that tipo; with both
it holds exactly the events that both single-filter results hold. -/
theorem list_filters (eventos : List Event) (q : ListQuery) (hq : validateList q = []) :
    filteredData eventos q = eventos.filter (matchesFilter q) ∧
    (getEvents eventos q).2.data = some (.page
      (jsSlice (eventos.filter (matchesFilter q))
        ((orDefault q.page 1 - 1) * orDefault q.limit 10)
        ((orDefault q.page 1 - 1) * orDefault q.limit 10 + orDefault q.limit 10))
      (orDefault q.page 1) (orDefault q.limit 10)
      (eventos.filter (matchesFilter q)).length) ∧
    (∀ t, q.tipo = some t → ∀ e,
      e ∈ filteredData eventos { q with mes := none } ↔ e ∈ eventos ∧ e.tipo = .str t) ∧
    (∀ e, e ∈ filteredData eventos q ↔
      e ∈ filteredData eventos { q with mes := none } ∧
      e ∈ filteredData eventos { q with tipo := none }) := by
  have h0 := filteredData_valid eventos q hq
  have h1 := filteredData_valid eventos _ (validateList_drop_mes q hq)
  have h2 := filteredData_valid eventos _ (validateList_drop_tipo q hq)
  refine ⟨h0, ?_, ?_, ?_⟩
  · rw [getEvents_accepted eventos q hq, h0]
  · intro t ht e
    rw [h1, List.mem_filter]
    simp [matchesFilter, ht]
  · intro e
    rw [h0, h1, h2]
    simp only [List.mem_filter, matchesFilter, Bool.and_eq_true, Bool.and_true, Bool.true_and]
    tauto

/-- C4 at the seeded collection: the query `tipo=egreso` is answered with
exactly the event of id 2 and total 1. -/
theorem list_filters_witness :
    (getEvents seedEventos { tipo := some "egreso" }).2.data
      = some (.page [rentaEvent] 1 10 1) ∧
    (filteredData seedEventos { tipo := some "egreso" }
        = seedEventos.filter (matchesFilter { tipo := some "egreso" }) ∧
      (getEvents seedEventos { tipo := some "egreso" }).2.data = some (.page
        (jsSlice (seedEventos.filter (matchesFilter { tipo := some "egreso" }))
          ((orDefault ({ tipo := some "egreso" } : ListQuery).page 1 - 1)
            * orDefault ({ tipo := some "egreso" } : ListQuery).limit 10)
          ((orDefault ({ tipo := some "egreso" } : ListQuery).page 1 - 1)
            * orDefault ({ tipo := some "egreso" } : ListQuery).limit 10
            + orDefault ({ tipo := some "egreso" } : ListQuery).limit 10))
        (orDefault ({ tipo := some "egreso" } : ListQuery).page 1)
        (orDefault ({ tipo := some "egreso" } : ListQuery).limit 10)
        (seedEventos.filter (matchesFilter { tipo := some "egreso" })).length) ∧
      (∀ t, ({ tipo := some "egreso" } : ListQuery).tipo = some t → ∀ e,
        e ∈ filteredData seedEventos { ({ tipo := some "egreso" } : ListQuery) with mes := none }
          ↔ e ∈ seedEventos ∧ e.tipo = .str t) ∧
      (∀ e, e ∈ filteredData seedEventos { tipo := some "egreso" } ↔
        e ∈ filteredData seedEventos
          { ({ tipo := some "egreso" } : ListQuery) with mes := none } ∧
        e ∈ filteredData seedEventos
          { ({ tipo := some "egreso" } : ListQuery) with tipo := none })) :=
  ⟨by decide, list_filters seedEventos { tipo := some "egreso" } (by decide)⟩

theorem value_nat (m : Nat) : NumLit.value ⟨false, m, 0, 0⟩ = (m : ℚ) := by
  simp [NumLit.value, scale10]

theorem looseEq_inj (a b : Int) (v : JsVal) (ha : looseEq a v = true)
    (hb : looseEq b v = true) : a = b := by
  cases v with
  | undefined => simp [looseEq] at ha
  | null => simp [looseEq] at ha
  | nan => simp [looseEq] at ha
  | inf c => simp [looseEq] at ha
  | bool c =>
    simp only [looseEq, decide_eq_true_eq] at ha hb
    exact_mod_cast ha.trans hb.symm
  | num q =>
    simp only [looseEq, decide_eq_true_eq] at ha hb
    exact_mod_cast ha.trans hb.symm
  | str s =>
    simp only [looseEq, decide_eq_true_eq] at ha hb
    have h := Option.some.inj (ha.symm.trans hb)
    exact_mod_cast h

theorem split_at_id (eventos : List Event) (id : JsVal) (e : Event)
    (hnd : (ids eventos).Nodup) (he : e ∈ eventos) (hid : looseEq e.id id = true) :
    ∃ l1 l2 : List Event, eventos = l1 ++ e :: l2 ∧
      (∀ x ∈ l1, looseEq x.id id = false) ∧ (∀ x ∈ l2, looseEq x.id id = false) := by
  obtain ⟨l1, l2, rfl⟩ := List.append_of_mem he
  refine ⟨l1, l2, rfl, ?_, ?_⟩
  · intro x hx
    by_contra hne
    have hxe : x.id = e.id := looseEq_inj _ _ id (by simpa using hne) hid
    simp only [ids, List.map_append, List.map_cons] at hnd
    have hdisj := (List.nodup_append.mp hnd).2.2
    exact hdisj (List.mem_map.mpr ⟨x, hx, rfl⟩) (by rw [hxe]; exact List.mem_cons_self _ _)
  · intro x hx
    by_contra hne
    have hxe : x.id = e.id := looseEq_inj _ _ id (by simpa using hne) hid
    simp only [ids, List.map_append, List.map_cons] at hnd
    have hcons := (List.nodup_append.mp hnd).2.1
    have hnot := (List.nodup_cons.mp hcons).1
    exact hnot (by rw [← hxe]; exact List.mem_map.mpr ⟨x, hx, rfl⟩)

theorem find?_split (p : Event → Bool) (l1 l2 : List Event) (e : Event)
    (h1 : ∀ x ∈ l1, p x = false) (he : p e = true) :
    (l1 ++ e :: l2).find? p = some e := by
  induction l1 with
  | nil => simp [List.find?, he]
  | cons a as ih =>
    have ha : p a = false := h1 a (List.mem_cons_self _ _)
    simp only [List.cons_append, List.find?, ha]
    exact ih (fun x hx => h1 x (List.mem_cons_of_mem _ hx))

theorem find?_none_of_all_false (p : Event → Bool) (l : List Event)
    (h : ∀ x ∈ l, p x = false) : l.find? p = none := by
  induction l with
  | nil => rfl
  | cons a as ih =>
    have ha : p a = false := h a (List.mem_cons_self _ _)
    simp only [List.find?, ha]
    exact ih (fun x hx => h x (List.mem_cons_of_mem _ hx))

theorem assignFirst_split (p : Event → Bool) (f : Event → Event) (l1 l2 : List Event)
    (e : Event) (h1 : ∀ x ∈ l1, p x = false) (he : p e = true) :
    assignFirst p f (l1 ++ e :: l2) = l1 ++ f e :: l2 := by
  induction l1 with
  | nil => simp [assignFirst, he]
  | cons a as ih =>
    have ha : p a = false := h1 a (List.mem_cons_self _ _)
    have ih2 := ih (fun x hx => h1 x (List.mem_cons_of_mem _ hx))
    rw [List.cons_append, assignFirst, ha, List.cons_append, ih2]
    simp

theorem filter_split (p : Event → Bool) (l1 l2 : List Event) (e : Event)
    (h1 : ∀ x ∈ l1, p x = false) (h2 : ∀ x ∈ l2, p x = false) (he : p e = true) :
    (l1 ++ e :: l2).filter (fun x => !p x) = l1 ++ l2 := by
  have f1 : l1.filter (fun x => !p x) = l1 :=
    List.filter_eq_self.mpr (fun x hx => by simp [h1 x hx])
  have f2 : l2.filter (fun x => !p x) = l2 :=
    List.filter_eq_self.mpr (fun x hx => by simp [h2 x hx])
  rw [List.filter_append, List.filter_cons, f1, f2]
  simp [he]

theorem putEvent_accepted (eventos : List Event) (id : JsVal) (b : Body)
    (h : validateUpdate id b = []) :
    putEvent eventos id b =
      match eventos.find? (fun e => looseEq e.id id) with
      | none => (eventos, { status := 404, code := "NF", message := "Event not found!" })
      | some event =>
        (assignFirst (fun e => looseEq e.id id) (fun e => applyUpdate e b) eventos,
          { status := 200, code := "OK", message := "Event updated successfully!",
            data := some (.event (applyUpdate event b)) }) := by
  simp [putEvent, h]

/-- C5, corrected: for every collection with unique ids, every id of a stored
event and every accepted update payload, the update handler answers HTTP 200
with code OK and the updated event, and replaces the target event, in place,
by the event with the same id in which each of nombre, descripcion, fecha, tipo
and adjunto holds the payload's value when the payload has the field (even a
falsy one), cantidad holds `Number` of the payload's value when the payload has
it (the payload's value itself when that is a number), and every absent field
keeps its previous value; no other key of the payload is read, every other
event is unchanged and the collection keeps its size and order. -/
theorem update_changes_present_fields (eventos : List Event) (id : JsVal) (b : Body)
    (e : Event) (hnd : (ids eventos).Nodup) (he : e ∈ eventos)
    (hid : looseEq e.id id = true) (hb : validateUpdate id b = []) :
    ∃ (l1 l2 : List Event) (e' : Event),
      eventos = l1 ++ e :: l2 ∧
      putEvent eventos id b =
        (l1 ++ e' :: l2,
          { status := 200, code := "OK", message := "Event updated successfully!",
            data := some (.event e') }) ∧
      e'.id = e.id ∧
      e'.nombre = updatedField e.nombre b.nombre ∧
      e'.descripcion = updatedField e.descripcion b.descripcion ∧
      (b.cantidad = .undefined → e'.cantidad = e.cantidad) ∧
      (b.cantidad ≠ .undefined → e'.cantidad = toNumber b.cantidad) ∧
      (∀ q, b.cantidad = .num q → e'.cantidad = b.cantidad) ∧
      e'.fecha = updatedField e.fecha b.fecha ∧
      e'.tipo = updatedField e.tipo b.tipo ∧
      e'.adjunto = updatedField e.adjunto b.adjunto := by
  obtain ⟨l1, l2, hsplit, h1, _⟩ := split_at_id eventos id e hnd he hid
  refine ⟨l1, l2, applyUpdate e b, hsplit, ?_, rfl, ?_, ?_, ?_, ?_, ?_, ?_, ?_, ?_⟩
  · rw [putEvent_accepted eventos id b hb, hsplit,
      find?_split (fun x => looseEq x.id id) l1 l2 e h1 hid,
      assignFirst_split (fun x => looseEq x.id id) _ l1 l2 e h1 hid]
  · simp only [applyUpdate, updatedField]; split <;> simp_all
  · simp only [applyUpdate, updatedField]; split <;> simp_all
  · intro h; simp [applyUpdate, h]
  · intro h; simp [applyUpdate, h]
  · intro q h; simp [applyUpdate, h, toNumber]
  · simp only [applyUpdate, updatedField]; split <;> simp_all
  · simp only [applyUpdate, updatedField]; split <;> simp_all
  · simp only [applyUpdate, updatedField]; split <;> simp_all

theorem looseEq_str_nat (k : Int) (s : String) (n : Nat)
    (h : readNumber s = some ⟨false, n, 0, 0⟩) :
    looseEq k (.str s) = decide (k = (n : Int)) := by
  simp only [looseEq, jsNumber, h, Option.map_some', value_nat, Option.some.injEq]
  congr 1
  exact propext ⟨fun hq => by exact_mod_cast hq.symm, fun hk => by exact_mod_cast hk.symm⟩

theorem overflowBound_gt : ((10 : ℚ) ^ 100) < overflowBound := by
  unfold overflowBound
  norm_num

theorem underflowBound_lt_one : underflowBound < 1 := by
  unfold underflowBound
  norm_num

theorem toDouble_nat (n : Nat) (hn : n < 10 ^ 100) : toDouble (n : ℚ) = .num (n : ℚ) := by
  have habs : abs (n : ℚ) = (n : ℚ) := abs_of_nonneg (Nat.cast_nonneg n)
  have hlt : (n : ℚ) < overflowBound := by
    have h1 : (n : ℚ) < (10 : ℚ) ^ 100 := by exact_mod_cast hn
    exact lt_trans h1 overflowBound_gt
  unfold toDouble
  rw [habs, if_neg (not_le.mpr hlt)]
  split
  · rename_i hsmall
    have h1 : (n : ℚ) < 1 := lt_of_le_of_lt hsmall underflowBound_lt_one
    have h0 : n = 0 := by
      have : n < 1 := by exact_mod_cast h1
      omega
    rw [h0]
    rfl
  · rfl

theorem isFloatGt0_str_nat (s : String) (n : Nat)
    (h : readDecimal s.toList = some ⟨false, n, 0, 0⟩) (hn : 0 < n) (hlt : n < 10 ^ 100) :
    isFloatGt0 (.str s) = true := by
  simp only [isFloatGt0, parseDecimal, h, Option.map_some', value_nat, toDouble_nat n hlt,
    numberGt0, decide_eq_true_eq]
  exact_mod_cast hn

theorem toNumber_str_nat (s : String) (n : Nat)
    (h : readNumber s = some ⟨false, n, 0, 0⟩) (hinf : readInfinity s = none)
    (hlt : n < 10 ^ 100) :
    toNumber (.str s) = .num (n : ℚ) := by
  simp only [toNumber, hinf, jsNumber, h, Option.map_some', value_nat, toDouble_nat n hlt]

/-- C5, as stated, fails: on the seeded collection the update of id 2 with the
payload cantidad "650" (a numeric string, which the validator accepts) stores
the number 650, not the payload's value. -/
theorem update_cantidad_text_counterexample :
    validateUpdate (.str "2") { cantidad := .str "650" } = [] ∧
    putEvent seedEventos (.str "2") { cantidad := .str "650" } =
      ([sueldoEvent, { rentaEvent with cantidad := .num 650 }],
        { status := 200, code := "OK", message := "Event updated successfully!",
          data := some (.event { rentaEvent with cantidad := .num 650 }) }) ∧
    ¬ ∃ e ∈ (putEvent seedEventos (.str "2") { cantidad := .str "650" }).1,
        e.cantidad = (JsVal.str "650") := by
  have hv : validateUpdate (.str "2") { cantidad := .str "650" } = [] := by
    have hf : isFloatGt0 (.str "650") = true :=
      isFloatGt0_str_nat "650" 650 (by decide) (by decide) (by norm_num)
    simp only [validateUpdate, optional, hf]
    decide
  have h1 : looseEq 1 (.str "2") = false := by
    rw [looseEq_str_nat 1 "2" 2 (by decide)]; decide
  have h2 : looseEq 2 (.str "2") = true := by
    rw [looseEq_str_nat 2 "2" 2 (by decide)]; decide
  have hn : toNumber (.str "650") = .num 650 := by
    rw [toNumber_str_nat "650" 650 (by decide) (by decide) (by norm_num)]; norm_num
  have hp : putEvent seedEventos (.str "2") { cantidad := .str "650" } =
      ([sueldoEvent, { rentaEvent with cantidad := .num 650 }],
        { status := 200, code := "OK", message := "Event updated successfully!",
          data := some (.event { rentaEvent with cantidad := .num 650 }) }) := by
    rw [putEvent_accepted _ _ _ hv]
    simp [seedEventos, List.find?, assignFirst, h1, h2, applyUpdate, hn, sueldoEvent,
      rentaEvent]
  refine ⟨hv, hp, ?_⟩
  rw [hp]
  simp [sueldoEvent, rentaEvent]

theorem looseEq_one_two : looseEq 1 (.str "2") = false := by
  rw [looseEq_str_nat 1 "2" 2 (by decide)]; decide

theorem looseEq_two_two : looseEq 2 (.str "2") = true := by
  rw [looseEq_str_nat 2 "2" 2 (by decide)]; decide

/-- C5 at the seeded collection: the update of id 2 with cantidad 650 changes
only cantidad of the event of id 2. -/
theorem update_changes_present_fields_witness :
    putEvent seedEventos (.str "2") soloCantidad =
      ([sueldoEvent, { rentaEvent with cantidad := .num 650 }],
        { status := 200, code := "OK", message := "Event updated successfully!",
          data := some (.event { rentaEvent with cantidad := .num 650 }) }) ∧
    ∃ (l1 l2 : List Event) (e' : Event),
      seedEventos = l1 ++ rentaEvent :: l2 ∧
      putEvent seedEventos (.str "2") soloCantidad =
        (l1 ++ e' :: l2,
          { status := 200, code := "OK", message := "Event updated successfully!",
            data := some (.event e') }) ∧
      e'.id = rentaEvent.id ∧
      e'.nombre = updatedField rentaEvent.nombre soloCantidad.nombre ∧
      e'.descripcion = updatedField rentaEvent.descripcion soloCantidad.descripcion ∧
      (soloCantidad.cantidad = .undefined → e'.cantidad = rentaEvent.cantidad) ∧
      (soloCantidad.cantidad ≠ .undefined → e'.cantidad = toNumber soloCantidad.cantidad) ∧
      (∀ q, soloCantidad.cantidad = .num q → e'.cantidad = soloCantidad.cantidad) ∧
      e'.fecha = updatedField rentaEvent.fecha soloCantidad.fecha ∧
      e'.tipo = updatedField rentaEvent.tipo soloCantidad.tipo ∧
      e'.adjunto = updatedField rentaEvent.adjunto soloCantidad.adjunto := by
  refine ⟨?_, update_changes_present_fields seedEventos (.str "2") soloCantidad rentaEvent
    (by decide) (by decide) looseEq_two_two (by decide)⟩
  rw [putEvent_accepted _ _ _ (by decide)]
  simp [seedEventos, List.find?, assignFirst, looseEq_one_two, looseEq_two_two, applyUpdate,
    soloCantidad, toNumber, sueldoEvent, rentaEvent]

/-- C6: for every collection and every id that no stored event has, the delete
handler answers HTTP 404 with code PF and no data, and the collection is left
as it was. -/
theorem delete_unknown_id (eventos : List Event) (id : JsVal)
    (h : ∀ e ∈ eventos, looseEq e.id id = false) :
    deleteEvent eventos id =
      (eventos, { status := 404, code := "PF", message := "Event not found!",
                  data := none, errors := none }) := by
  unfold deleteEvent
  rw [find?_none_of_all_false (fun e => looseEq e.id id) eventos h]

theorem looseEq_seed_seven : ∀ e ∈ seedEventos, looseEq e.id (.str "7") = false := by
  intro e he
  rw [looseEq_str_nat e.id "7" 7 (by decide)]
  simp only [seedEventos, List.mem_cons, List.mem_singleton, List.not_mem_nil, or_false] at he
  rcases he with rfl | rfl <;> decide

/-- C6 at the seeded collection: deleting the unknown id 7. -/
theorem delete_unknown_id_witness :
    deleteEvent seedEventos (.str "7") =
      (seedEventos, { status := 404, code := "PF", message := "Event not found!",
                      data := none, errors := none }) :=
  delete_unknown_id seedEventos (.str "7") looseEq_seed_seven

theorem looseEq_old_of_new (eventos : List Event) (v : JsVal)
    (hv : looseEq (nextId eventos) v = true) :
    ∀ x ∈ eventos, looseEq x.id v = false := by
  intro x hx
  by_contra hne
  have hxe : x.id = nextId eventos := looseEq_inj _ _ v (by simpa using hne) hv
  have hlt := nextId_gt eventos x hx
  omega

theorem getEventByQuery_found (l1 l2 : List Event) (e : Event) (v : JsVal)
    (hne : notEmpty v = true) (h1 : ∀ x ∈ l1, looseEq x.id v = false)
    (he : looseEq e.id v = true) :
    getEventByQuery (l1 ++ e :: l2) v =
      (l1 ++ e :: l2, { status := 200, code := "OK", message := "Event found!",
                        data := some (.event e) }) := by
  unfold getEventByQuery
  rw [find?_split (fun x => looseEq x.id v) l1 l2 e h1 he]
  simp [hne]

theorem getEventByQuery_unknown (eventos : List Event) (v : JsVal)
    (hne : notEmpty v = true) (h : ∀ x ∈ eventos, looseEq x.id v = false) :
    getEventByQuery eventos v =
      (eventos, { status := 404, code := "NF", message := "Event not found!" }) := by
  unfold getEventByQuery
  rw [find?_none_of_all_false (fun x => looseEq x.id v) eventos h]
  simp [hne]

theorem create_then_lookup_aux (eventos : List Event) (b : Body) (v : JsVal)
    (hb : validateCreate b = []) (hne : notEmpty v = true)
    (hv : looseEq (nextId eventos) v = true) :
    getEventByQuery (postEvent eventos b).1 v =
      ((postEvent eventos b).1,
        { status := 200, code := "OK", message := "Event found!",
          data := some (.event (createdEvent eventos b)) }) := by
  rw [postEvent_accepted eventos b hb]
  exact getEventByQuery_found eventos [] (createdEvent eventos b) v hne
    (looseEq_old_of_new eventos v hv) hv

/-- C7, corrected: for every collection and every accepted create payload, a
lookup by any non-empty id value that loosely equals the id just assigned
(the number itself or its text) answers HTTP 200 with code OK and the event
the create returned, whose id is the assigned id, whose nombre, descripcion,
fecha, tipo and adjunto are the payload's and whose cantidad is `Number` of
the payload's cantidad; when the payload's cantidad is a number, that event is
the object made of the id and the six fields of the payload. -/
theorem create_then_lookup (eventos : List Event) (b : Body) (v : JsVal)
    (hb : validateCreate b = []) (hne : notEmpty v = true)
    (hv : looseEq (nextId eventos) v = true) :
    (postEvent eventos b).2.data = some (.event (createdEvent eventos b)) ∧
    getEventByQuery (postEvent eventos b).1 v =
      ((postEvent eventos b).1,
        { status := 200, code := "OK", message := "Event found!",
          data := some (.event (createdEvent eventos b)) }) ∧
    createdEvent eventos b =
      { spreadEvent (nextId eventos) b with cantidad := toNumber b.cantidad } ∧
    (∀ q, b.cantidad = .num q → createdEvent eventos b = spreadEvent (nextId eventos) b) := by
  refine ⟨?_, create_then_lookup_aux eventos b v hb hne hv, rfl, ?_⟩
  · rw [postEvent_accepted eventos b hb]; rfl
  · intro q hq
    simp [createdEvent, spreadEvent, hq, toNumber]

theorem looseEq_three_three : looseEq 3 (.str "3") = true := by
  rw [looseEq_str_nat 3 "3" 3 (by decide)]; decide

/-- C7 at the seeded collection: creating "Bono" and looking the id "3" up. -/
theorem create_then_lookup_witness :
    createdEvent seedEventos bonoBody = bonoEvent ∧
    ((postEvent seedEventos bonoBody).2.data
        = some (.event (createdEvent seedEventos bonoBody)) ∧
      getEventByQuery (postEvent seedEventos bonoBody).1 (.str "3") =
        ((postEvent seedEventos bonoBody).1,
          { status := 200, code := "OK", message := "Event found!",
            data := some (.event (createdEvent seedEventos bonoBody)) }) ∧
      createdEvent seedEventos bonoBody =
        { spreadEvent (nextId seedEventos) bonoBody with
            cantidad := toNumber bonoBody.cantidad } ∧
      (∀ q, bonoBody.cantidad = .num q →
        createdEvent seedEventos bonoBody = spreadEvent (nextId seedEventos) bonoBody)) :=
  ⟨by decide,
    create_then_lookup seedEventos bonoBody (.str "3") (by decide) (by decide)
      looseEq_three_three⟩

theorem validateCreate_bonoText : validateCreate bonoTextBody = [] := by
  have hf : isFloatGt0 (.str "200") = true :=
    isFloatGt0_str_nat "200" 200 (by decide) (by decide) (by norm_num)
  simp only [validateCreate, bonoTextBody, hf]
  decide

/-- C7, as stated, fails: the accepted payload with cantidad "200" creates
the event of id 3, and the lookup of id 3 returns it with the number 200 as
cantidad, which is not the object made of the id and the payload's fields. -/
theorem create_then_lookup_counterexample :
    validateCreate bonoTextBody = [] ∧
    getEventByQuery (postEvent seedEventos bonoTextBody).1 (.str "3") =
      ((postEvent seedEventos bonoTextBody).1,
        { status := 200, code := "OK", message := "Event found!",
          data := some (.event bonoEvent) }) ∧
    bonoEvent ≠ spreadEvent 3 bonoTextBody := by
  have hn : toNumber (.str "200") = .num 200 := by
    rw [toNumber_str_nat "200" 200 (by decide) (by decide) (by norm_num)]; norm_num
  have hc : createdEvent seedEventos bonoTextBody = bonoEvent := by
    simp only [createdEvent, bonoTextBody, hn, bonoEvent]
    decide
  refine ⟨validateCreate_bonoText, ?_, by decide⟩
  have h := (create_then_lookup_aux seedEventos bonoTextBody (.str "3")
    validateCreate_bonoText (by decide) looseEq_three_three)
  rw [hc] at h
  exact h

theorem deleteEvent_split (l1 l2 : List Event) (e : Event) (id : JsVal)
    (h1 : ∀ x ∈ l1, looseEq x.id id = false) (h2 : ∀ x ∈ l2, looseEq x.id id = false)
    (he : looseEq e.id id = true) :
    deleteEvent (l1 ++ e :: l2) id =
      (l1 ++ l2, { status := 200, code := "OK", message := "Event deleted successfully!",
                   data := some (.event e) }) := by
  unfold deleteEvent
  rw [find?_split (fun x => looseEq x.id id) l1 l2 e h1 he,
    filter_split (fun x => looseEq x.id id) l1 l2 e h1 h2 he]

/-- C8: for every collection with unique ids and every id of a stored event
`e` (a path parameter, so not empty), the delete handler answers HTTP 200 with
code OK and `e`, and the collection afterwards is the previous one with `e`
taken out and every other event in place: one element fewer, and a lookup of
that id then answers HTTP 404 with code NF. -/
theorem delete_removes_event (eventos : List Event) (id : JsVal) (e : Event)
    (hnd : (ids eventos).Nodup) (he : e ∈ eventos) (hid : looseEq e.id id = true)
    (hne : notEmpty id = true) :
    ∃ l1 l2 : List Event,
      eventos = l1 ++ e :: l2 ∧
      deleteEvent eventos id =
        (l1 ++ l2, { status := 200, code := "OK", message := "Event deleted successfully!",
                     data := some (.event e), errors := none }) ∧
      (deleteEvent eventos id).1.length + 1 = eventos.length ∧
      e ∉ (deleteEvent eventos id).1 ∧
      (∀ x ∈ eventos, x ≠ e → x ∈ (deleteEvent eventos id).1) ∧
      getEventByQuery (deleteEvent eventos id).1 id =
        ((deleteEvent eventos id).1,
          { status := 404, code := "NF", message := "Event not found!",
            data := none, errors := none }) := by
  obtain ⟨l1, l2, hsplit, h1, h2⟩ := split_at_id eventos id e hnd he hid
  have hdel := deleteEvent_split l1 l2 e id h1 h2 hid
  have hall : ∀ x ∈ l1 ++ l2, looseEq x.id id = false := by
    intro x hx
    rcases List.mem_append.mp hx with h | h
    · exact h1 x h
    · exact h2 x h
  subst hsplit
  refine ⟨l1, l2, rfl, hdel, ?_, ?_, ?_, ?_⟩
  · rw [hdel]; simp; omega
  · rw [hdel]
    intro hmem
    have := hall e hmem
    rw [hid] at this
    exact Bool.noConfusion this
  · intro x hx hxe
    rw [hdel]
    rcases List.mem_append.mp hx with h | h
    · exact List.mem_append_left _ h
    · rcases List.mem_cons.mp h with h | h
      · exact absurd h hxe
      · exact List.mem_append_right _ h
  · rw [hdel]
    exact getEventByQuery_unknown (l1 ++ l2) id hne hall

theorem looseEq_one_one : looseEq 1 (.str "1") = true := by
  rw [looseEq_str_nat 1 "1" 1 (by decide)]; decide

/-- C8 at the seeded collection after the create scenario: deleting id 1
returns the first seeded event and leaves the ids 2 and 3. -/
theorem delete_removes_event_witness :
    ids (deleteEvent (postEvent seedEventos bonoBody).1 (.str "1")).1 = [2, 3] ∧
    ∃ l1 l2 : List Event,
      (postEvent seedEventos bonoBody).1 = l1 ++ sueldoEvent :: l2 ∧
      deleteEvent (postEvent seedEventos bonoBody).1 (.str "1") =
        (l1 ++ l2, { status := 200, code := "OK", message := "Event deleted successfully!",
                     data := some (.event sueldoEvent), errors := none }) ∧
      (deleteEvent (postEvent seedEventos bonoBody).1 (.str "1")).1.length + 1
        = (postEvent seedEventos bonoBody).1.length ∧
      sueldoEvent ∉ (deleteEvent (postEvent seedEventos bonoBody).1 (.str "1")).1 ∧
      (∀ x ∈ (postEvent seedEventos bonoBody).1, x ≠ sueldoEvent →
        x ∈ (deleteEvent (postEvent seedEventos bonoBody).1 (.str "1")).1) ∧
      getEventByQuery (deleteEvent (postEvent seedEventos bonoBody).1 (.str "1")).1 (.str "1") =
        ((deleteEvent (postEvent seedEventos bonoBody).1 (.str "1")).1,
          { status := 404, code := "NF", message := "Event not found!",
            data := none, errors := none }) := by
  have hw := delete_removes_event (postEvent seedEventos bonoBody).1 (.str "1") sueldoEvent
    (by decide) (by decide) looseEq_one_one (by decide)
  refine ⟨?_, hw⟩
  obtain ⟨l1, l2, hsplit, hdel, hlen, hnot, _, _⟩ := hw
  have hs : (postEvent seedEventos bonoBody).1 = [] ++ sueldoEvent :: [rentaEvent, bonoEvent] := by
    decide
  have h2 : ∀ x ∈ [rentaEvent, bonoEvent], looseEq x.id (.str "1") = false := by
    intro x hx
    rw [looseEq_str_nat x.id "1" 1 (by decide)]
    simp only [List.mem_cons, List.mem_singleton, List.not_mem_nil, or_false] at hx
    rcases hx with rfl | rfl <;> decide
  rw [hs, deleteEvent_split [] [rentaEvent, bonoEvent] sueldoEvent (.str "1")
    (fun x hx => absurd hx (List.not_mem_nil x)) h2 looseEq_one_one]
  decide

theorem numChar_not_space (c : Char) (h : numChar c = true) : isJsSpace c = false := by
  have hd : c.isDigit = true → 48 ≤ c.toNat ∧ c.toNat ≤ 57 := by
    intro hc
    simp only [Char.isDigit, Bool.and_eq_true, decide_eq_true_eq] at hc
    exact ⟨hc.1, hc.2⟩
  simp only [numChar, Bool.or_eq_true, decide_eq_true_eq] at h
  have hn : c.toNat = 43 ∨ c.toNat = 45 ∨ c.toNat = 46 ∨ c.toNat = 101 ∨ c.toNat = 69
      ∨ (48 ≤ c.toNat ∧ c.toNat ≤ 57) := by
    rcases h with ((((h | h) | h) | h) | h) | h
    · exact Or.inr (Or.inr (Or.inr (Or.inr (Or.inr (hd h)))))
    · subst h; decide
    · subst h; decide
    · subst h; decide
    · subst h; decide
    · subst h; decide
  simp only [isJsSpace, Bool.or_eq_false_iff, Bool.and_eq_false_iff, decide_eq_false_iff_not]
  omega

theorem numChar_of_isDigit (c : Char) (h : c.isDigit = true) : numChar c = true := by
  simp [numChar, h]

theorem takeSign_chars (cs : List Char) (h : ∀ c ∈ (takeSign cs).2, numChar c = true) :
    ∀ c ∈ cs, numChar c = true := by
  unfold takeSign at h
  split at h
  · intro c hc
    rcases List.mem_cons.mp hc with rfl | hr
    · decide
    · exact h c hr
  · intro c hc
    rcases List.mem_cons.mp hc with rfl | hr
    · decide
    · exact h c hr
  · exact h

theorem all_digits_chars (ds : List Char) (h : ds.all Char.isDigit = true) :
    ∀ c ∈ ds, numChar c = true := by
  intro c hc
  exact numChar_of_isDigit c (List.all_eq_true.mp h c hc)

theorem parseExponent_chars (cs : List Char) (e : Int) (h : parseExponent cs = some e) :
    ∀ c ∈ cs, numChar c = true := by
  cases cs with
  | nil => intro c hc; exact absurd hc (List.not_mem_nil c)
  | cons a r =>
    simp only [parseExponent] at h
    split at h
    · rename_i hae
      split at h
      · exact absurd h (by simp)
      · rename_i hds
        simp only [Bool.or_eq_true, Bool.not_eq_true', not_or, Bool.not_eq_true,
          Bool.not_eq_false] at hds
        intro c hc
        rcases List.mem_cons.mp hc with rfl | hr
        · rcases hae with rfl | rfl <;> decide
        · exact takeSign_chars r (all_digits_chars _ hds.2) c hr
    · exact absurd h (by simp)

theorem splitFraction_chars (cs : List Char)
    (h : ∀ c ∈ (splitFraction cs).2, numChar c = true) : ∀ c ∈ cs, numChar c = true := by
  unfold splitFraction at h
  split at h
  · rename_i r
    intro c hc
    rcases List.mem_cons.mp hc with rfl | hr
    · decide
    · rw [← List.takeWhile_append_dropWhile Char.isDigit r] at hr
      rcases List.mem_append.mp hr with hfp | hexp
      · exact numChar_of_isDigit c (List.mem_takeWhile_imp hfp)
      · exact h c hexp
  · exact h

theorem readDecimal_chars (cs : List Char) (d : NumLit) (h : readDecimal cs = some d) :
    cs ≠ [] ∧ ∀ c ∈ cs, numChar c = true := by
  unfold readDecimal at h
  simp only at h
  split at h
  · exact absurd h (by simp)
  · rename_i hnonempty
    cases hpe : parseExponent
        (splitFraction (List.dropWhile Char.isDigit (takeSign cs).2)).2 with
    | none => rw [hpe] at h; exact absurd h (by simp)
    | some e =>
      have hbody : ∀ c ∈ (takeSign cs).2, numChar c = true := by
        intro c hc
        rw [← List.takeWhile_append_dropWhile Char.isDigit (takeSign cs).2] at hc
        rcases List.mem_append.mp hc with hip | hrest
        · exact numChar_of_isDigit c (List.mem_takeWhile_imp hip)
        · exact splitFraction_chars _ (parseExponent_chars _ e hpe) c hrest
      refine ⟨?_, takeSign_chars cs hbody⟩
      intro hnil
      subst hnil
      simp [takeSign, splitFraction] at hnonempty

theorem dropWhile_space_self (cs : List Char) (h : ∀ c ∈ cs, isJsSpace c = false) :
    cs.dropWhile isJsSpace = cs := by
  cases cs with
  | nil => rfl
  | cons a r =>
    have ha : isJsSpace a = false := h a (List.mem_cons_self _ _)
    simp [List.dropWhile, ha]

theorem jsTrim_self (cs : List Char) (h : ∀ c ∈ cs, isJsSpace c = false) : jsTrim cs = cs := by
  unfold jsTrim
  rw [dropWhile_space_self cs h,
    dropWhile_space_self cs.reverse (fun c hc => h c (List.mem_reverse.mp hc)),
    List.reverse_reverse]

theorem readNumber_of_readDecimal (s : String) (d : NumLit)
    (h : readDecimal s.toList = some d) : readNumber s = some d := by
  obtain ⟨hne, hchars⟩ := readDecimal_chars s.toList d h
  have htrim : jsTrim s.toList = s.toList :=
    jsTrim_self _ (fun c hc => numChar_not_space c (hchars c hc))
  unfold readNumber
  rw [htrim]
  split
  · rename_i hnil; exact absurd hnil hne
  · rename_i r heq
    have := hchars 'x' (by rw [heq]; simp)
    exact absurd this (by decide)
  · rename_i r heq
    have := hchars 'X' (by rw [heq]; simp)
    exact absurd this (by decide)
  · rename_i r heq
    have := hchars 'o' (by rw [heq]; simp)
    exact absurd this (by decide)
  · rename_i r heq
    have := hchars 'O' (by rw [heq]; simp)
    exact absurd this (by decide)
  · rename_i r heq
    have := hchars 'b' (by rw [heq]; simp)
    exact absurd this (by decide)
  · rename_i r heq
    have := hchars 'B' (by rw [heq]; simp)
    exact absurd this (by decide)
  · exact h

theorem jsNumber_of_parseDecimal (s : String) (q : ℚ)
    (h : parseDecimal s.toList = some q) : jsNumber s = some q := by
  unfold parseDecimal at h
  cases hd : readDecimal s.toList with
  | none => rw [hd] at h; exact absurd h (by simp)
  | some d =>
    rw [hd] at h
    unfold jsNumber
    rw [readNumber_of_readDecimal s d hd]
    exact h

theorem readNumber_infinity :
    readNumber "Infinity" = none ∧ readNumber "+Infinity" = none ∧
    readNumber "-Infinity" = none := by decide

theorem readNumber_congr (s t : String) (h : jsTrim s.toList = jsTrim t.toList) :
    readNumber s = readNumber t := by
  unfold readNumber
  rw [h]

theorem readInfinity_none (s : String) (d : NumLit) (h : readNumber s = some d) :
    readInfinity s = none := by
  unfold readInfinity
  split
  · rename_i hinf
    rcases hinf with h1 | h1
    · have h2 := readNumber_congr s "Infinity" (h1.trans (by decide))
      rw [h2, readNumber_infinity.1] at h
      exact absurd h (by simp)
    · have h2 := readNumber_congr s "+Infinity" (h1.trans (by decide))
      rw [h2, readNumber_infinity.2.1] at h
      exact absurd h (by simp)
  · split
    · rename_i h1
      have h2 := readNumber_congr s "-Infinity" (h1.trans (by decide))
      rw [h2, readNumber_infinity.2.2] at h
      exact absurd h (by simp)
    · rfl

/-- A value that `isFloat({ gt: 0 })` accepts is turned by `Number` into a
number greater than 0: a positive finite number or `Infinity`. -/
theorem toNumber_of_isFloatGt0 (v : JsVal) (h : isFloatGt0 v = true) :
    numberGt0 (toNumber v) = true := by
  cases v with
  | undefined => simp [isFloatGt0] at h
  | null => simp [isFloatGt0] at h
  | nan => simp [isFloatGt0] at h
  | inf c => simp [isFloatGt0] at h
  | bool c => simp [isFloatGt0] at h
  | num q => exact h
  | str s =>
    simp only [isFloatGt0] at h
    split at h
    · rename_i q hq
      have hq2 : (readDecimal s.toList).map NumLit.value = some q := hq
      cases hd : readDecimal s.toList with
      | none => rw [hd] at hq2; exact absurd hq2 (by simp)
      | some d =>
        have hn : readNumber s = some d := readNumber_of_readDecimal s d hd
        simp only [toNumber, readInfinity_none s d hn, jsNumber_of_parseDecimal s q hq]
        exact h
    · exact absurd h (by simp)

theorem validateCreate_nil (b : Body) (h : validateCreate b = []) :
    notEmpty b.nombre = true ∧ isFloatGt0 b.cantidad = true ∧ isISO8601 b.fecha = true ∧
    isInTipos b.tipo = true := by
  simp only [validateCreate, List.append_eq_nil, check_eq_nil] at h
  exact ⟨h.1.1.1.1.1.1.1.1, h.1.1.1.1.1.1.2, h.1.1.1.1.2, h.1.1.2⟩

theorem validateUpdate_nil (id : JsVal) (b : Body) (h : validateUpdate id b = []) :
    optional isString b.nombre = true ∧ optional isFloatGt0 b.cantidad = true ∧
    optional isISO8601 b.fecha = true ∧ optional isInTipos b.tipo = true := by
  simp only [validateUpdate, List.append_eq_nil, check_eq_nil] at h
  exact ⟨h.1.1.1.1.1.2, h.1.1.1.2, h.1.1.2, h.1.2⟩

theorem optional_cases (p : JsVal → Bool) (v : JsVal) (h : optional p v = true) :
    v = .undefined ∨ p v = true := by
  simpa [optional] using h

theorem positiveNumber_toNumber (v : JsVal) (h : isFloatGt0 v = true) :
    positiveNumber (toNumber v) = true := by
  have hgt := toNumber_of_isFloatGt0 v h
  cases hn : toNumber v <;> simp_all [numberGt0, positiveNumber]

theorem enumeratedTipo_of_isIn (v : JsVal) (h : isInTipos v = true) :
    enumeratedTipo v = true := by
  cases v <;> simp_all [isInTipos, enumeratedTipo]

theorem storedOk_created (eventos : List Event) (b : Body) (h : validateCreate b = []) :
    storedOk (createdEvent eventos b) = true := by
  obtain ⟨hn, hc, _, ht⟩ := validateCreate_nil b h
  simp only [storedOk, createdEvent, storedNombre, Bool.and_eq_true, Bool.or_eq_true]
  exact ⟨⟨Or.inr hn, positiveNumber_toNumber _ hc⟩, enumeratedTipo_of_isIn _ ht⟩

theorem storedOk_applyUpdate (e : Event) (id : JsVal) (b : Body)
    (h : validateUpdate id b = []) (he : storedOk e = true) :
    storedOk (applyUpdate e b) = true := by
  obtain ⟨hn, hc, _, ht⟩ := validateUpdate_nil id b h
  simp only [storedOk, storedNombre, Bool.and_eq_true, Bool.or_eq_true] at he ⊢
  obtain ⟨⟨en, ec⟩, et⟩ := he
  refine ⟨⟨?_, ?_⟩, ?_⟩
  · rcases optional_cases _ _ hn with hu | hp
    · simpa [applyUpdate, hu] using en
    · by_cases hu : b.nombre = .undefined
      · simpa [applyUpdate, hu] using en
      · simp only [applyUpdate, ne_eq, hu, not_false_eq_true, if_true]
        exact Or.inl hp
  · rcases optional_cases _ _ hc with hu | hp
    · simpa [applyUpdate, hu] using ec
    · by_cases hu : b.cantidad = .undefined
      · simpa [applyUpdate, hu] using ec
      · simp only [applyUpdate, ne_eq, hu, not_false_eq_true, if_true]
        exact positiveNumber_toNumber _ hp
  · rcases optional_cases _ _ ht with hu | hp
    · simpa [applyUpdate, hu] using et
    · by_cases hu : b.tipo = .undefined
      · simpa [applyUpdate, hu] using et
      · simp only [applyUpdate, ne_eq, hu, not_false_eq_true, if_true]
        exact enumeratedTipo_of_isIn _ hp

theorem mem_assignFirst (p : Event → Bool) (f : Event → Event) (l : List Event) (x : Event)
    (hx : x ∈ assignFirst p f l) : x ∈ l ∨ ∃ y ∈ l, x = f y := by
  induction l with
  | nil => simp [assignFirst] at hx
  | cons a as ih =>
    simp only [assignFirst] at hx
    split at hx
    · rcases List.mem_cons.mp hx with rfl | h
      · exact Or.inr ⟨a, List.mem_cons_self _ _, rfl⟩
      · exact Or.inl (List.mem_cons_of_mem _ h)
    · rcases List.mem_cons.mp hx with rfl | h
      · exact Or.inl (List.mem_cons_self _ _)
      · rcases ih h with h1 | ⟨y, hy, rfl⟩
        · exact Or.inl (List.mem_cons_of_mem _ h1)
        · exact Or.inr ⟨y, List.mem_cons_of_mem _ hy, rfl⟩

theorem storedOk_handle (eventos : List Event) (r : Request)
    (h : ∀ e ∈ eventos, storedOk e = true) : ∀ e ∈ (handle eventos r).1, storedOk e = true := by
  cases r with
  | getAll => exact h
  | list q =>
    simp only [handle, getEvents]
    split <;> exact h
  | getById id =>
    simp only [handle, getEventByQuery]
    split
    · exact h
    · split <;> exact h
  | create b =>
    simp only [handle]
    by_cases hb : validateCreate b = []
    · rw [postEvent_accepted eventos b hb]
      intro e he
      rcases List.mem_append.mp he with h1 | h1
      · exact h e h1
      · rw [List.mem_singleton] at h1
        rw [h1]
        exact storedOk_created eventos b hb
    · rw [postEvent_rejected eventos b hb]; exact h
  | update id b =>
    simp only [handle]
    by_cases hb : validateUpdate id b = []
    · rcases putEvent_store eventos id b with hs | hs
      · rw [hs]; exact h
      · rw [hs]
        intro e he
        rcases mem_assignFirst _ _ _ _ he with h1 | ⟨y, hy, rfl⟩
        · exact h e h1
        · exact storedOk_applyUpdate y id b hb (h y hy)
    · have hs : (putEvent eventos id b).1 = eventos := by simp [putEvent, hb]
      rw [hs]; exact h
  | delete id =>
    simp only [handle]
    rcases deleteEvent_store eventos id with hs | hs
    · rw [hs]; exact h
    · rw [hs]
      intro e he
      exact h e (List.mem_of_mem_filter he)

theorem value_one_exp (k : Nat) : NumLit.value ⟨false, 1, 0, (k : Int)⟩ = (10 : ℚ) ^ k := by
  simp [NumLit.value, scale10]

theorem value_one_e400 : NumLit.value ⟨false, 1, 0, 400⟩ = (10 : ℚ) ^ 400 :=
  value_one_exp 400

theorem toDouble_overflow : toDouble ((10 : ℚ) ^ 400) = .inf false := by
  have hpos : (0 : ℚ) < (10 : ℚ) ^ 400 := by positivity
  have hbig : overflowBound ≤ abs ((10 : ℚ) ^ 400) := by
    rw [abs_of_pos hpos]
    unfold overflowBound
    norm_num
  unfold toDouble
  rw [if_pos hbig]
  simp [not_lt.mpr (le_of_lt hpos)]

/-- An accepted `cantidad` beyond the range of the doubles: the text `1e400`
passes `isFloat({ gt: 0 })`, `Number` of it is `Infinity`, and the create
handler stores that. -/
theorem cantidad_overflow_stored :
    validateCreate bonoEnormeBody = [] ∧ toNumber (.str "1e400") = .inf false ∧
    (createdEvent seedEventos bonoEnormeBody).cantidad = .inf false := by
  have hr : readDecimal "1e400".toList = some ⟨false, 1, 0, 400⟩ := by decide
  have hf : isFloatGt0 (.str "1e400") = true := by
    simp only [isFloatGt0, parseDecimal, hr, Option.map_some', value_one_e400,
      toDouble_overflow]
    rfl
  have hn : toNumber (.str "1e400") = .inf false := by
    have hrn : readNumber "1e400" = some ⟨false, 1, 0, 400⟩ := by decide
    have hinf : readInfinity "1e400" = none := by decide
    simp only [toNumber, hinf, jsNumber, hrn, Option.map_some', value_one_e400,
      toDouble_overflow]
  refine ⟨?_, hn, ?_⟩
  · simp only [validateCreate, bonoEnormeBody, hf]
    decide
  · simp only [createdEvent, bonoEnormeBody, hn]

/-- C9, corrected: from the seeded collection, after every finite sequence of
requests, every stored event has a cantidad that is a number greater than 0 (a
positive finite number, or `Infinity` when the accepted text is beyond the
range of the doubles), a tipo that is "ingreso" or "egreso", and a nombre that
is a text (possibly the empty one, which an update accepts) or a value whose
text form is not empty. Nothing is stated about the form of fecha. -/
theorem stored_events_keep_constraints (reqs : List Request) :
    ∀ e ∈ run seedEventos reqs, storedOk e = true :=
  run_invariant (fun evs => ∀ e ∈ evs, storedOk e = true) storedOk_handle reqs seedEventos
    (by decide)

/-- C9 at the create scenario: the event it stores keeps the constraints. -/
theorem stored_events_keep_constraints_witness :
    bonoEvent ∈ run seedEventos [.create bonoBody] ∧ storedOk bonoEvent = true :=
  ⟨by decide, stored_events_keep_constraints [.create bonoBody] bonoEvent (by decide)⟩

/-- C9, as stated, fails: the update of id 1 with nombre "" passes the
validator, and the collection then holds an event whose nombre is the empty
text, which the data model excludes. -/
theorem stored_events_counterexample :
    validateUpdate (.str "1") nombreVacio = [] ∧
    run seedEventos [.update (.str "1") nombreVacio]
      = [{ sueldoEvent with nombre := .str "" }, rentaEvent] ∧
    dataModelOk { sueldoEvent with nombre := .str "" } = false := by
  refine ⟨by decide, ?_, by decide⟩
  simp only [run, List.foldl_cons, List.foldl_nil, handle]
  rw [putEvent_accepted _ _ _ (by decide)]
  simp [seedEventos, List.find?, assignFirst, looseEq_one_one, applyUpdate,
    nombreVacio, sueldoEvent, rentaEvent]

theorem notEmpty_false_of_nombreViolates (v : JsVal) (h : nombreViolates v = true) :
    notEmpty v = false := by
  cases v with
  | str s =>
    simp only [nombreViolates, missing, Bool.false_or, decide_eq_true_eq] at h
    rw [h]; rfl
  | undefined => rfl
  | null => rfl
  | nan => rfl
  | bool c => simp [nombreViolates, missing] at h
  | num q => simp [nombreViolates, missing] at h
  | inf c => simp [nombreViolates, missing] at h

theorem isFloatGt0_false_of_cantidadViolates (v : JsVal) (h : cantidadViolates v = true) :
    isFloatGt0 v = false := by
  cases hf : isFloatGt0 v with
  | false => rfl
  | true =>
    have hgt := toNumber_of_isFloatGt0 v hf
    simp only [cantidadViolates, Bool.or_eq_true] at h
    rcases h with h | h
    · cases v <;> simp_all [missing, isFloatGt0]
    · cases hn : toNumber v with
      | num q =>
        rw [hn] at h hgt
        simp only [numberGt0, decide_eq_true_eq] at h hgt
        exact absurd hgt (not_lt.mpr h)
      | inf c =>
        rw [hn] at h hgt
        simp only [numberGt0] at h hgt
        rw [h] at hgt
        exact absurd hgt (by decide)
      | undefined => rw [hn] at hgt; exact absurd hgt (by decide)
      | null => rw [hn] at hgt; exact absurd hgt (by decide)
      | nan => rw [hn] at hgt; exact absurd hgt (by decide)
      | bool c => rw [hn] at hgt; exact absurd hgt (by simp [numberGt0])
      | str t => rw [hn] at hgt; exact absurd hgt (by simp [numberGt0])

theorem isISO8601_false_of_fechaViolates (v : JsVal) (h : fechaViolates v = true) :
    isISO8601 v = false := by
  cases v <;> simp_all [fechaViolates, missing, isISO8601, wellFormedDate]

theorem isInTipos_false_of_tipoViolates (v : JsVal) (h : tipoViolates v = true) :
    isInTipos v = false := by
  cases v <;> simp_all [tipoViolates, missing, isInTipos, enumeratedTipo]

/-- C10: for every collection and every create payload in which nombre,
cantidad, fecha or tipo violates its rule, the create handler answers HTTP 400
with code BR and the list of all violations, which has at least one entry for
each violating field, and the collection is left as it was. -/
theorem create_rejects_violations (eventos : List Event) (b : Body)
    (h : nombreViolates b.nombre = true ∨ cantidadViolates b.cantidad = true
      ∨ fechaViolates b.fecha = true ∨ tipoViolates b.tipo = true) :
    postEvent eventos b =
      (eventos, { status := 400, code := "BR", message := "Invalid Data", data := none,
                  errors := some (validateCreate b) }) ∧
    (nombreViolates b.nombre = true → ∃ err ∈ validateCreate b, err.path = "nombre") ∧
    (cantidadViolates b.cantidad = true → ∃ err ∈ validateCreate b, err.path = "cantidad") ∧
    (fechaViolates b.fecha = true → ∃ err ∈ validateCreate b, err.path = "fecha") ∧
    (tipoViolates b.tipo = true → ∃ err ∈ validateCreate b, err.path = "tipo") := by
  have hn : nombreViolates b.nombre = true →
      ∃ err ∈ validateCreate b, err.path = "nombre" := by
    intro hv
    refine ⟨⟨"nombre", "Name is required"⟩, ?_, rfl⟩
    simp [validateCreate, check, notEmpty_false_of_nombreViolates _ hv]
  have hc : cantidadViolates b.cantidad = true →
      ∃ err ∈ validateCreate b, err.path = "cantidad" := by
    intro hv
    refine ⟨⟨"cantidad", "Amount must be > 0"⟩, ?_, rfl⟩
    simp [validateCreate, check, isFloatGt0_false_of_cantidadViolates _ hv]
  have hf : fechaViolates b.fecha = true → ∃ err ∈ validateCreate b, err.path = "fecha" := by
    intro hv
    refine ⟨⟨"fecha", "Date must be ISO (YYYY-MM-DD)"⟩, ?_, rfl⟩
    simp [validateCreate, check, isISO8601_false_of_fechaViolates _ hv]
  have ht : tipoViolates b.tipo = true → ∃ err ∈ validateCreate b, err.path = "tipo" := by
    intro hv
    refine ⟨⟨"tipo", "Invalid type"⟩, ?_, rfl⟩
    simp [validateCreate, check, isInTipos_false_of_tipoViolates _ hv]
  refine ⟨?_, hn, hc, hf, ht⟩
  apply postEvent_rejected
  intro hnil
  rcases h with h | h | h | h
  · obtain ⟨err, hmem, _⟩ := hn h
    rw [hnil] at hmem
    exact absurd hmem (List.not_mem_nil err)
  · obtain ⟨err, hmem, _⟩ := hc h
    rw [hnil] at hmem
    exact absurd hmem (List.not_mem_nil err)
  · obtain ⟨err, hmem, _⟩ := hf h
    rw [hnil] at hmem
    exact absurd hmem (List.not_mem_nil err)
  · obtain ⟨err, hmem, _⟩ := ht h
    rw [hnil] at hmem
    exact absurd hmem (List.not_mem_nil err)

/-- C10 at the specification's validation scenario: the four fields violate
their rules, the payload is rejected with four violations, one for each field,
and the seeded collection is unchanged. -/
theorem create_rejects_violations_witness :
    validateCreate invalidBody =
      [⟨"nombre", "Name is required"⟩, ⟨"cantidad", "Amount must be > 0"⟩,
        ⟨"fecha", "Date must be ISO (YYYY-MM-DD)"⟩, ⟨"tipo", "Invalid type"⟩] ∧
    nombreViolates invalidBody.nombre = true ∧ cantidadViolates invalidBody.cantidad = true ∧
    fechaViolates invalidBody.fecha = true ∧ tipoViolates invalidBody.tipo = true ∧
    (postEvent seedEventos invalidBody =
      (seedEventos, { status := 400, code := "BR", message := "Invalid Data", data := none,
                      errors := some (validateCreate invalidBody) }) ∧
      (nombreViolates invalidBody.nombre = true →
        ∃ err ∈ validateCreate invalidBody, err.path = "nombre") ∧
      (cantidadViolates invalidBody.cantidad = true →
        ∃ err ∈ validateCreate invalidBody, err.path = "cantidad") ∧
      (fechaViolates invalidBody.fecha = true →
        ∃ err ∈ validateCreate invalidBody, err.path = "fecha") ∧
      (tipoViolates invalidBody.tipo = true →
        ∃ err ∈ validateCreate invalidBody, err.path = "tipo")) :=
  ⟨by decide, by decide, by decide, by decide, by decide,
    create_rejects_violations seedEventos invalidBody (Or.inl (by decide))⟩

/-! ## Decimal text of an id -/

theorem digitChar_digit (d : Nat) (hd : d < 10) :
    (Nat.digitChar d).isDigit = true ∧ digitVal (Nat.digitChar d) = d := by
  interval_cases d <;> decide

theorem digitsVal_cons (a : Nat) (c : Char) (cs : List Char) :
    digitsVal a (c :: cs) = digitsVal (a * 10 + digitVal c) cs := rfl

theorem digitsVal_acc (a : Nat) (xs : List Char) :
    digitsVal a xs = a * 10 ^ xs.length + digitsVal 0 xs := by
  induction xs generalizing a with
  | nil =>
    show a = a * 10 ^ 0 + 0
    rw [pow_zero]; omega
  | cons c cs ih =>
    rw [digitsVal_cons, digitsVal_cons, ih (a * 10 + digitVal c), ih (0 * 10 + digitVal c),
      List.length_cons, pow_succ]
    generalize digitVal c = d
    generalize (10 : Nat) ^ cs.length = p
    generalize digitsVal 0 cs = r
    ring

theorem toDigitsCore_spec (fuel : Nat) :
    ∀ (n : Nat) (ds : List Char), n < fuel → (∀ c ∈ ds, c.isDigit = true) →
      (∀ c ∈ Nat.toDigitsCore 10 fuel n ds, c.isDigit = true) ∧
      Nat.toDigitsCore 10 fuel n ds ≠ [] ∧
      digitsVal 0 (Nat.toDigitsCore 10 fuel n ds) = n * 10 ^ ds.length + digitsVal 0 ds := by
  induction fuel with
  | zero => intro n ds hn; exact absurd hn (Nat.not_lt_zero n)
  | succ f ih =>
    intro n ds hn hds
    have hd := digitChar_digit (n % 10) (Nat.mod_lt n (by decide))
    have hcons : ∀ c ∈ Nat.digitChar (n % 10) :: ds, c.isDigit = true := by
      intro c hc
      rcases List.mem_cons.mp hc with rfl | h
      · exact hd.1
      · exact hds c h
    have hval : digitsVal 0 (Nat.digitChar (n % 10) :: ds)
        = (n % 10) * 10 ^ ds.length + digitsVal 0 ds := by
      rw [digitsVal_cons, digitsVal_acc, hd.2]
      ring
    simp only [Nat.toDigitsCore]
    split
    · rename_i hzero
      refine ⟨hcons, List.cons_ne_nil _ _, ?_⟩
      rw [hval]
      have hn10 : n % 10 = n := by omega
      rw [hn10]
    · rename_i hpos
      have hlt : n / 10 < f := by omega
      obtain ⟨h1, h2, h3⟩ := ih (n / 10) (Nat.digitChar (n % 10) :: ds) hlt hcons
      refine ⟨h1, h2, ?_⟩
      rw [h3, hval, List.length_cons, pow_succ]
      have hdm := Nat.div_add_mod n 10
      calc n / 10 * (10 ^ ds.length * 10) + (n % 10 * 10 ^ ds.length + digitsVal 0 ds)
          = (10 * (n / 10) + n % 10) * 10 ^ ds.length + digitsVal 0 ds := by ring
        _ = n * 10 ^ ds.length + digitsVal 0 ds := by rw [hdm]

theorem repr_digits (m : Nat) :
    (∀ c ∈ (Nat.repr m).toList, c.isDigit = true) ∧ (Nat.repr m).toList ≠ [] ∧
    digitsVal 0 (Nat.repr m).toList = m := by
  have h := toDigitsCore_spec (m + 1) m [] (Nat.lt_succ_self m)
    (fun c hc => absurd hc (List.not_mem_nil c))
  have hl : (Nat.repr m).toList = Nat.toDigitsCore 10 (m + 1) m [] := rfl
  obtain ⟨h1, h2, h3⟩ := h
  rw [hl]
  refine ⟨h1, h2, ?_⟩
  rw [h3]
  show m * 10 ^ 0 + 0 = m
  rw [pow_zero]; omega

theorem takeSign_digit (c : Char) (cs : List Char) (hc : c.isDigit = true) :
    takeSign (c :: cs) = (1, c :: cs) := by
  unfold takeSign
  split
  · rename_i r heq
    have : c = '-' := (List.cons.inj heq).1
    subst this
    exact absurd hc (by decide)
  · rename_i r heq
    have : c = '+' := (List.cons.inj heq).1
    subst this
    exact absurd hc (by decide)
  · rfl

theorem takeWhile_digits (ds : List Char) (h : ∀ c ∈ ds, c.isDigit = true) :
    ds.takeWhile Char.isDigit = ds ∧ ds.dropWhile Char.isDigit = [] := by
  induction ds with
  | nil => exact ⟨rfl, rfl⟩
  | cons c cs ih =>
    have hc : c.isDigit = true := h c (List.mem_cons_self _ _)
    obtain ⟨h1, h2⟩ := ih (fun x hx => h x (List.mem_cons_of_mem _ hx))
    simp [List.takeWhile, List.dropWhile, hc, h1, h2]

theorem readDecimal_digits (ds : List Char) (h : ∀ c ∈ ds, c.isDigit = true) (hne : ds ≠ []) :
    readDecimal ds = some ⟨false, digitsVal 0 ds, 0, 0⟩ ∧
    readDecimal ('-' :: ds) = some ⟨true, digitsVal 0 ds, 0, 0⟩ := by
  obtain ⟨c, cs, rfl⟩ := List.exists_cons_of_ne_nil hne
  have hc : c.isDigit = true := h c (List.mem_cons_self _ _)
  obtain ⟨h1, h2⟩ := takeWhile_digits (c :: cs) h
  have hs : takeSign (c :: cs) = (1, c :: cs) := takeSign_digit c cs hc
  have hm : takeSign ('-' :: c :: cs) = (-1, c :: cs) := rfl
  constructor
  · simp [readDecimal, hs, h1, h2, splitFraction, parseExponent]
  · simp [readDecimal, hm, h1, h2, splitFraction, parseExponent]

theorem value_neg_nat (m : Nat) : NumLit.value ⟨true, m, 0, 0⟩ = -(m : ℚ) := by
  simp [NumLit.value, scale10]

theorem readInt_digits (ds : List Char) (h : ∀ c ∈ ds, c.isDigit = true) (hne : ds ≠ []) :
    readInt ds = some (digitsVal 0 ds : Int) ∧
    readInt ('-' :: ds) = some (-(digitsVal 0 ds : Int)) := by
  obtain ⟨c, cs, rfl⟩ := List.exists_cons_of_ne_nil hne
  have hc : c.isDigit = true := h c (List.mem_cons_self _ _)
  have hs : takeSign (c :: cs) = (1, c :: cs) := takeSign_digit c cs hc
  have hm : takeSign ('-' :: c :: cs) = (-1, c :: cs) := rfl
  have hall : (c :: cs).all Char.isDigit = true := List.all_eq_true.mpr h
  constructor
  · simp only [readInt, hs, hall]
    simp
  · simp only [readInt, hm, hall]
    simp

theorem decimalText_ofNat (m : Nat) : (decimalText (m : Int)).toList = (Nat.repr m).toList := rfl

theorem decimalText_negSucc (m : Nat) :
    (decimalText (Int.negSucc m)).toList = '-' :: (Nat.repr (m + 1)).toList := rfl

/-- The text of an id reads back as the id: `Number(String(n)) = n`. -/
theorem jsNumber_decimalText (n : Int) : jsNumber (decimalText n) = some (n : ℚ) := by
  cases n with
  | ofNat m =>
    obtain ⟨hd, hne, hv⟩ := repr_digits m
    have hr := (readDecimal_digits _ hd hne).1
    rw [hv] at hr
    have hn : readNumber (decimalText (Int.ofNat m)) = some ⟨false, m, 0, 0⟩ :=
      readNumber_of_readDecimal _ _ hr
    simp only [jsNumber, hn, Option.map_some', value_nat]
    rfl
  | negSucc m =>
    obtain ⟨hd, hne, hv⟩ := repr_digits (m + 1)
    have hr := (readDecimal_digits _ hd hne).2
    rw [hv] at hr
    have hn : readNumber (decimalText (Int.negSucc m)) = some ⟨true, m + 1, 0, 0⟩ :=
      readNumber_of_readDecimal _ _ (by rw [decimalText_negSucc]; exact hr)
    simp only [jsNumber, hn, Option.map_some', value_neg_nat, Option.some.injEq]
    rw [Int.negSucc_eq]
    push_cast
    ring

theorem looseEq_decimalText (n : Int) : looseEq n (.str (decimalText n)) = true := by
  simp [looseEq, jsNumber_decimalText]

theorem decimalText_ne_nil (n : Int) : (decimalText n).toList ≠ [] := by
  cases n with
  | ofNat m => exact (repr_digits m).2.1
  | negSucc m => rw [decimalText_negSucc]; exact List.cons_ne_nil _ _

theorem notEmpty_decimalText (n : Int) : notEmpty (.str (decimalText n)) = true := by
  have h := decimalText_ne_nil n
  cases hl : (decimalText n).toList with
  | nil => exact absurd hl h
  | cons c cs => simp only [notEmpty, textEmpty, hl]; rfl

theorem readInt_decimalText (n : Int) : readInt (decimalText n).toList = some n := by
  cases n with
  | ofNat m =>
    obtain ⟨hd, hne, hv⟩ := repr_digits m
    have hr := (readInt_digits _ hd hne).1
    rw [hv] at hr
    exact hr
  | negSucc m =>
    obtain ⟨hd, hne, hv⟩ := repr_digits (m + 1)
    have hr := (readInt_digits _ hd hne).2
    rw [hv] at hr
    rw [decimalText_negSucc, hr, Int.negSucc_eq]
    push_cast
    rfl

theorem looseEq_num_self (n : Int) : looseEq n (.num (n : ℚ)) = true := by
  simp [looseEq]

theorem getEventByQuery_stored (eventos : List Event) (e : Event) (v : JsVal)
    (hnd : (ids eventos).Nodup) (he : e ∈ eventos) (hne : notEmpty v = true)
    (hv : looseEq e.id v = true) :
    getEventByQuery eventos v =
      (eventos, { status := 200, code := "OK", message := "Event found!",
                  data := some (.event e), errors := none }) := by
  obtain ⟨l1, l2, hsplit, h1, _⟩ := split_at_id eventos v e hnd he hv
  subst hsplit
  exact getEventByQuery_found l1 l2 e v hne h1 hv

/-- C11, corrected: for every collection with unique ids and every stored
event `e`, the lookup with the decimal text of `e.id` answers HTTP 200 with
code OK and exactly `e`, as the lookup with the number `e.id` does; and for
every non-empty id value that loosely equals no stored id the lookup answers
HTTP 404 with code NF and neither data nor errors. -/
theorem lookup_by_id (eventos : List Event) (e : Event)
    (hnd : (ids eventos).Nodup) (he : e ∈ eventos) :
    getEventByQuery eventos (.str (decimalText e.id)) =
      (eventos, { status := 200, code := "OK", message := "Event found!",
                  data := some (.event e), errors := none }) ∧
    getEventByQuery eventos (.num (e.id : ℚ)) =
      getEventByQuery eventos (.str (decimalText e.id)) ∧
    ∀ v : JsVal, notEmpty v = true → (∀ x ∈ eventos, looseEq x.id v = false) →
      getEventByQuery eventos v =
        (eventos, { status := 404, code := "NF", message := "Event not found!",
                    data := none, errors := none }) := by
  have hs := getEventByQuery_stored eventos e (.str (decimalText e.id)) hnd he
    (notEmpty_decimalText e.id) (looseEq_decimalText e.id)
  have hn := getEventByQuery_stored eventos e (.num (e.id : ℚ)) hnd he rfl
    (looseEq_num_self e.id)
  refine ⟨hs, ?_, ?_⟩
  · rw [hs, hn]
  · intro v hne hall
    exact getEventByQuery_unknown eventos v hne hall

/-- C11 at the seeded collection: the lookup of "2" returns the second event. -/
theorem lookup_by_id_witness :
    decimalText rentaEvent.id = "2" ∧
    (getEventByQuery seedEventos (.str (decimalText rentaEvent.id)) =
      (seedEventos, { status := 200, code := "OK", message := "Event found!",
                      data := some (.event rentaEvent), errors := none }) ∧
    getEventByQuery seedEventos (.num (rentaEvent.id : ℚ)) =
      getEventByQuery seedEventos (.str (decimalText rentaEvent.id)) ∧
    ∀ v : JsVal, notEmpty v = true → (∀ x ∈ seedEventos, looseEq x.id v = false) →
      getEventByQuery seedEventos v =
        (seedEventos, { status := 404, code := "NF", message := "Event not found!",
                        data := none, errors := none })) :=
  ⟨by decide, lookup_by_id seedEventos rentaEvent (by decide) (by decide)⟩

theorem looseEq_seed_empty : ∀ x ∈ seedEventos, looseEq x.id (.str "") = false := by
  intro x hx
  rw [looseEq_str_nat x.id "" 0 (by decide)]
  simp only [seedEventos, List.mem_cons, List.mem_singleton, List.not_mem_nil, or_false] at hx
  rcases hx with rfl | rfl <;> decide

/-- C11, as stated, fails: on the seeded collection the empty id value equals
no stored id, and the lookup answers it with code PF under HTTP 200, not with
code NF under HTTP 404. -/
theorem lookup_empty_id_counterexample :
    (∀ x ∈ seedEventos, looseEq x.id (.str "") = false) ∧
    getEventByQuery seedEventos (.str "") =
      (seedEventos, { status := 200, code := "PF", message := "Event ID is required!",
                      data := none, errors := none }) :=
  ⟨looseEq_seed_empty, by decide⟩

theorem find?_of_knownId (eventos : List Event) (id : JsVal) (h : knownId eventos id = true) :
    ∃ e, eventos.find? (fun e => looseEq e.id id) = some e := by
  cases hf : eventos.find? (fun e => looseEq e.id id) with
  | some e => exact ⟨e, rfl⟩
  | none =>
    rw [List.find?_eq_none] at hf
    simp only [knownId, List.any_eq_true] at h
    obtain ⟨x, hx, hp⟩ := h
    exact absurd hp (hf x hx)

theorem find?_of_not_knownId (eventos : List Event) (id : JsVal)
    (h : knownId eventos id = false) :
    eventos.find? (fun e => looseEq e.id id) = none := by
  apply find?_none_of_all_false
  intro x hx
  cases hp : looseEq x.id id with
  | false => rfl
  | true =>
    have : knownId eventos id = true := List.any_eq_true.mpr ⟨x, hx, hp⟩
    rw [h] at this
    exact Bool.noConfusion this

theorem putEvent_rejected (eventos : List Event) (id : JsVal) (b : Body)
    (h : validateUpdate id b ≠ []) :
    putEvent eventos id b =
      (eventos, { status := 400, code := "BR", message := "Invalid Data",
                  errors := some (validateUpdate id b) }) := by
  simp [putEvent, h]

theorem getEvents_rejected (eventos : List Event) (q : ListQuery) (h : validateList q ≠ []) :
    getEvents eventos q =
      (eventos, { status := 400, code := "BR", message := "Invalid Data",
                  errors := some (validateList q) }) := by
  simp [getEvents, h]

/-- C12: the envelope mapping of the six event routes. A lookup with a missing
or empty id answers PF under 200; a lookup of an unknown id NF under 404; an
update of an unknown id NF under 404; a delete of an unknown id PF under 404;
a validation failure on list, create or update BR under 400 with the errors;
every success OK with data, under 201 for create and 200 otherwise; these are
all the cases, and no response carries both data and errors. -/
theorem envelope_mapping (eventos : List Event) :
    (∀ id, notEmpty id = false →
      envelopeIs (getEventByQuery eventos id).2 200 "PF" false false = true) ∧
    (∀ id, notEmpty id = true → knownId eventos id = false →
      envelopeIs (getEventByQuery eventos id).2 404 "NF" false false = true) ∧
    (∀ id, notEmpty id = true → knownId eventos id = true →
      envelopeIs (getEventByQuery eventos id).2 200 "OK" true false = true) ∧
    (∀ id b, validateUpdate id b ≠ [] →
      envelopeIs (putEvent eventos id b).2 400 "BR" false true = true ∧
      (putEvent eventos id b).2.errors = some (validateUpdate id b)) ∧
    (∀ id b, validateUpdate id b = [] → knownId eventos id = false →
      envelopeIs (putEvent eventos id b).2 404 "NF" false false = true) ∧
    (∀ id b, validateUpdate id b = [] → knownId eventos id = true →
      envelopeIs (putEvent eventos id b).2 200 "OK" true false = true) ∧
    (∀ id, knownId eventos id = false →
      envelopeIs (deleteEvent eventos id).2 404 "PF" false false = true) ∧
    (∀ id, knownId eventos id = true →
      envelopeIs (deleteEvent eventos id).2 200 "OK" true false = true) ∧
    (∀ q, validateList q ≠ [] →
      envelopeIs (getEvents eventos q).2 400 "BR" false true = true ∧
      (getEvents eventos q).2.errors = some (validateList q)) ∧
    (∀ q, validateList q = [] →
      envelopeIs (getEvents eventos q).2 200 "OK" true false = true) ∧
    (∀ b, validateCreate b ≠ [] →
      envelopeIs (postEvent eventos b).2 400 "BR" false true = true ∧
      (postEvent eventos b).2.errors = some (validateCreate b)) ∧
    (∀ b, validateCreate b = [] →
      envelopeIs (postEvent eventos b).2 201 "OK" true false = true) ∧
    envelopeIs (getAllEvents eventos).2 200 "OK" true false = true ∧
    (∀ r : Request, (handle eventos r).2.data = none ∨ (handle eventos r).2.errors = none) := by
  refine ⟨?_, ?_, ?_, ?_, ?_, ?_, ?_, ?_, ?_, ?_, ?_, ?_, ?_, ?_⟩
  · intro id h
    simp [getEventByQuery, h, envelopeIs]
  · intro id h hk
    simp [getEventByQuery, h, find?_of_not_knownId eventos id hk, envelopeIs]
  · intro id h hk
    obtain ⟨e, he⟩ := find?_of_knownId eventos id hk
    simp [getEventByQuery, h, he, envelopeIs]
  · intro id b h
    rw [putEvent_rejected eventos id b h]
    exact ⟨by simp [envelopeIs], rfl⟩
  · intro id b h hk
    rw [putEvent_accepted eventos id b h, find?_of_not_knownId eventos id hk]
    simp [envelopeIs]
  · intro id b h hk
    obtain ⟨e, he⟩ := find?_of_knownId eventos id hk
    rw [putEvent_accepted eventos id b h, he]
    simp [envelopeIs]
  · intro id hk
    simp [deleteEvent, find?_of_not_knownId eventos id hk, envelopeIs]
  · intro id hk
    obtain ⟨e, he⟩ := find?_of_knownId eventos id hk
    simp [deleteEvent, he, envelopeIs]
  · intro q h
    rw [getEvents_rejected eventos q h]
    exact ⟨by simp [envelopeIs], rfl⟩
  · intro q h
    rw [getEvents_accepted eventos q h]
    simp [envelopeIs]
  · intro b h
    rw [postEvent_rejected eventos b h]
    exact ⟨by simp [envelopeIs], rfl⟩
  · intro b h
    rw [postEvent_accepted eventos b h]
    simp [envelopeIs]
  · simp [getAllEvents, envelopeIs]
  · intro r
    cases r with
    | getAll => right; rfl
    | list q =>
      simp only [handle, getEvents]
      split
      · left; rfl
      · right; rfl
    | getById id =>
      simp only [handle, getEventByQuery]
      split
      · left; rfl
      · split
        · left; rfl
        · right; rfl
    | create b =>
      simp only [handle, postEvent]
      split
      · left; rfl
      · right; rfl
    | update id b =>
      simp only [handle, putEvent]
      split
      · left; rfl
      · split
        · left; rfl
        · right; rfl
    | delete id =>
      simp only [handle, deleteEvent]
      split
      · right; rfl
      · left; rfl

theorem matchesMes_eq_yearMonth (cs : List Char) : matchesMes cs = yearMonth cs := by
  rcases cs with _ | ⟨a, _ | ⟨b, _ | ⟨c, _ | ⟨d, _ | ⟨e, _ | ⟨f, _ | ⟨g, _ | ⟨h, t⟩⟩⟩⟩⟩⟩⟩⟩ <;>
    simp [matchesMes, yearMonth, Bool.and_assoc]

theorem tipo_check_iff (q : ListQuery) :
    optionalQuery (fun s => s = "ingreso" || s = "egreso") q.tipo = !tipoParamBad q := by
  cases h : q.tipo with
  | none => simp [optionalQuery, tipoParamBad, h]
  | some t => by_cases h1 : t = "ingreso" <;> by_cases h2 : t = "egreso" <;>
      simp [optionalQuery, tipoParamBad, h, h1, h2]

theorem mes_check_iff (q : ListQuery) :
    optionalQuery (fun s => matchesMes s.toList) q.mes = !mesParamBad q := by
  cases h : q.mes with
  | none => simp [optionalQuery, mesParamBad, h]
  | some m => simp [optionalQuery, mesParamBad, h, matchesMes_eq_yearMonth]

theorem page_check_iff (q : ListQuery) :
    optionalQuery (isIntBetween 1 none) q.page = !pageParamBad q := by
  cases h : q.page with
  | none => simp [optionalQuery, pageParamBad, h]
  | some s =>
    simp only [optionalQuery, pageParamBad, h, isIntBetween]
    cases readInt s.toList with
    | none => rfl
    | some n => by_cases hn : n < 1 <;> simp [hn, not_lt.mp, not_le.mpr]

theorem limit_check_iff (q : ListQuery) :
    optionalQuery (isIntBetween 1 (some 100)) q.limit = !limitParamBad q := by
  cases h : q.limit with
  | none => simp [optionalQuery, limitParamBad, h]
  | some s =>
    simp only [optionalQuery, limitParamBad, h, isIntBetween]
    cases readInt s.toList with
    | none => rfl
    | some n =>
      by_cases h1 : n < 1 <;> by_cases h2 : 100 < n <;>
        simp [h1, h2, not_lt.mp, not_le.mpr]

theorem validateList_eq (q : ListQuery) :
    validateList q =
      check (!tipoParamBad q) "tipo" "Tipo must be \"ingreso\" or \"egreso\""
        ++ check (!mesParamBad q) "mes" "Mes must be in YYYY-MM format"
        ++ check (!pageParamBad q) "page" "Invalid value"
        ++ check (!limitParamBad q) "limit" "Invalid value" := by
  simp only [validateList, tipo_check_iff, mes_check_iff, page_check_iff, limit_check_iff]

/-- C13: for every query of the list route, the request is rejected with HTTP
400 and code BR exactly when tipo is present and not one of the two texts, or
mes is present and not of the form YYYY-MM, or page is present and not an
integer at least 1, or limit is present and not an integer from 1 to 100; the
errors then have an entry for every violating parameter; and otherwise the
answer is HTTP 200 with code OK. The collection is never changed. -/
theorem list_validation (eventos : List Event) (q : ListQuery) :
    (((getEvents eventos q).2.status = 400 ∧ (getEvents eventos q).2.code = "BR") ↔
      (tipoParamBad q = true ∨ mesParamBad q = true ∨ pageParamBad q = true
        ∨ limitParamBad q = true)) ∧
    ((tipoParamBad q = true ∨ mesParamBad q = true ∨ pageParamBad q = true
        ∨ limitParamBad q = true) →
      (getEvents eventos q).2.errors = some (validateList q)) ∧
    (tipoParamBad q = true → ∃ err ∈ validateList q, err.path = "tipo") ∧
    (mesParamBad q = true → ∃ err ∈ validateList q, err.path = "mes") ∧
    (pageParamBad q = true → ∃ err ∈ validateList q, err.path = "page") ∧
    (limitParamBad q = true → ∃ err ∈ validateList q, err.path = "limit") ∧
    (¬ (tipoParamBad q = true ∨ mesParamBad q = true ∨ pageParamBad q = true
        ∨ limitParamBad q = true) →
      (getEvents eventos q).2.status = 200 ∧ (getEvents eventos q).2.code = "OK") ∧
    (getEvents eventos q).1 = eventos := by
  have hnil : validateList q = [] ↔
      ¬ (tipoParamBad q = true ∨ mesParamBad q = true ∨ pageParamBad q = true
        ∨ limitParamBad q = true) := by
    rw [validateList_eq]
    simp only [List.append_eq_nil, check_eq_nil, Bool.not_eq_true', not_or, Bool.not_eq_true]
    tauto
  refine ⟨?_, ?_, ?_, ?_, ?_, ?_, ?_, ?_⟩
  · by_cases h : validateList q = []
    · rw [getEvents_accepted eventos q h]
      constructor
      · intro hs
        have h200 : (200 : Nat) = 400 := hs.1
        exact absurd h200 (by decide)
      · intro hb; exact absurd hb (hnil.mp h)
    · rw [getEvents_rejected eventos q h]
      constructor
      · intro _; by_contra hb; exact h (hnil.mpr hb)
      · intro _; exact ⟨rfl, rfl⟩
  · intro hb
    have h : validateList q ≠ [] := fun hn => hnil.mp hn hb
    rw [getEvents_rejected eventos q h]
  · intro hb
    refine ⟨⟨"tipo", "Tipo must be \"ingreso\" or \"egreso\""⟩, ?_, rfl⟩
    rw [validateList_eq]
    simp [check, hb]
  · intro hb
    refine ⟨⟨"mes", "Mes must be in YYYY-MM format"⟩, ?_, rfl⟩
    rw [validateList_eq]
    simp [check, hb]
  · intro hb
    refine ⟨⟨"page", "Invalid value"⟩, ?_, rfl⟩
    rw [validateList_eq]
    simp [check, hb]
  · intro hb
    refine ⟨⟨"limit", "Invalid value"⟩, ?_, rfl⟩
    rw [validateList_eq]
    simp [check, hb]
  · intro hb
    rw [getEvents_accepted eventos q (hnil.mpr hb)]
    exact ⟨rfl, rfl⟩
  · by_cases h : validateList q = []
    · rw [getEvents_accepted eventos q h]
    · rw [getEvents_rejected eventos q h]

/-- C13 at a query in which all four parameters violate their rules: four
entries, one for each, and the answer is HTTP 400 with code BR. -/
theorem list_validation_witness :
    validateList invalidQuery =
      [⟨"tipo", "Tipo must be \"ingreso\" or \"egreso\""⟩,
        ⟨"mes", "Mes must be in YYYY-MM format"⟩, ⟨"page", "Invalid value"⟩,
        ⟨"limit", "Invalid value"⟩] ∧
    ((getEvents seedEventos invalidQuery).2.status = 400 ∧
      (getEvents seedEventos invalidQuery).2.code = "BR") :=
  ⟨by decide, (list_validation seedEventos invalidQuery).1.mpr (Or.inl (by decide))⟩

/-- C14: for every collection and every update request that the validator
rejects, or whose id no stored event has, the collection after the request is
the collection before it; the answer is BR under 400 in the first case and NF
under 404 otherwise. -/
theorem update_failure_keeps_store (eventos : List Event) (id : JsVal) (b : Body)
    (h : validateUpdate id b ≠ [] ∨ knownId eventos id = false) :
    (putEvent eventos id b).1 = eventos ∧
    (validateUpdate id b ≠ [] →
      (putEvent eventos id b).2 =
        { status := 400, code := "BR", message := "Invalid Data", data := none,
          errors := some (validateUpdate id b) }) ∧
    (validateUpdate id b = [] →
      (putEvent eventos id b).2 =
        { status := 404, code := "NF", message := "Event not found!", data := none,
          errors := none }) := by
  by_cases hv : validateUpdate id b = []
  · have hk : knownId eventos id = false := by
      rcases h with h | h
      · exact absurd hv h
      · exact h
    rw [putEvent_accepted eventos id b hv, find?_of_not_knownId eventos id hk]
    exact ⟨rfl, fun hne => absurd hv hne, fun _ => rfl⟩
  · rw [putEvent_rejected eventos id b hv]
    exact ⟨rfl, fun _ => rfl, fun hnil => absurd hnil hv⟩

theorem knownId_seed_seven : knownId seedEventos (.str "7") = false := by
  cases hk : knownId seedEventos (.str "7") with
  | false => rfl
  | true =>
    obtain ⟨x, hx, hp⟩ := List.any_eq_true.mp hk
    rw [looseEq_seed_seven x hx] at hp
    exact Bool.noConfusion hp

/-- C14 at the seeded collection: an update with a negative cantidad. -/
theorem update_failure_keeps_store_witness :
    (putEvent seedEventos (.str "1") cantidadNegativa).1 = seedEventos ∧
    (validateUpdate (.str "1") cantidadNegativa ≠ [] →
      (putEvent seedEventos (.str "1") cantidadNegativa).2 =
        { status := 400, code := "BR", message := "Invalid Data", data := none,
          errors := some (validateUpdate (.str "1") cantidadNegativa) }) ∧
    (validateUpdate (.str "1") cantidadNegativa = [] →
      (putEvent seedEventos (.str "1") cantidadNegativa).2 =
        { status := 404, code := "NF", message := "Event not found!", data := none,
          errors := none }) :=
  update_failure_keeps_store seedEventos (.str "1") cantidadNegativa (Or.inl (by decide))

theorem deleteEvent_created (eventos : List Event) (b : Body) (w : JsVal)
    (hw : looseEq (nextId eventos) w = true) :
    deleteEvent (eventos ++ [createdEvent eventos b]) w =
      (eventos, { status := 200, code := "OK", message := "Event deleted successfully!",
                  data := some (.event (createdEvent eventos b)), errors := none }) := by
  have h := deleteEvent_split eventos [] (createdEvent eventos b) w
    (looseEq_old_of_new eventos w hw) (fun x hx => absurd hx (List.not_mem_nil x)) hw
  rw [List.append_nil] at h
  exact h

theorem postEvent_accepted_created (eventos : List Event) (b : Body)
    (h : validateCreate b = []) :
    postEvent eventos b =
      (eventos ++ [createdEvent eventos b],
        { status := 201, code := "OK", message := "Event created successfully!",
          data := some (.event (createdEvent eventos b)) }) :=
  postEvent_accepted eventos b h

/-- C16: for every collection and every accepted create payload, the create
followed by the delete of the id it returned (any value that loosely equals
it, its decimal text among them) leaves the collection as it was before the
create, and the delete answers HTTP 200 with code OK and the event the create
returned. -/
theorem delete_undoes_create (eventos : List Event) (b : Body) (v : JsVal)
    (hb : validateCreate b = []) (hv : looseEq (nextId eventos) v = true) :
    (postEvent eventos b).2.data = some (.event (createdEvent eventos b)) ∧
    (createdEvent eventos b).id = nextId eventos ∧
    deleteEvent (postEvent eventos b).1 v =
      (eventos, { status := 200, code := "OK", message := "Event deleted successfully!",
                  data := some (.event (createdEvent eventos b)), errors := none }) ∧
    deleteEvent (postEvent eventos b).1 (.str (decimalText (nextId eventos))) =
      (eventos, { status := 200, code := "OK", message := "Event deleted successfully!",
                  data := some (.event (createdEvent eventos b)), errors := none }) := by
  rw [postEvent_accepted_created eventos b hb]
  exact ⟨rfl, rfl, deleteEvent_created eventos b v hv,
    deleteEvent_created eventos b _ (looseEq_decimalText (nextId eventos))⟩

/-- C16 at the seeded collection: creating "Bono" and deleting the id "3". -/
theorem delete_undoes_create_witness :
    (postEvent seedEventos bonoBody).2.data = some (.event (createdEvent seedEventos bonoBody)) ∧
    (createdEvent seedEventos bonoBody).id = nextId seedEventos ∧
    deleteEvent (postEvent seedEventos bonoBody).1 (.str "3") =
      (seedEventos, { status := 200, code := "OK", message := "Event deleted successfully!",
                      data := some (.event (createdEvent seedEventos bonoBody)),
                      errors := none }) ∧
    deleteEvent (postEvent seedEventos bonoBody).1 (.str (decimalText (nextId seedEventos))) =
      (seedEventos, { status := 200, code := "OK", message := "Event deleted successfully!",
                      data := some (.event (createdEvent seedEventos bonoBody)),
                      errors := none }) :=
  delete_undoes_create seedEventos bonoBody (.str "3") (by decide) looseEq_three_three

theorem serveAll_nextId (reqs : List Request) :
    ∀ m : Module, (serveAll m reqs).nextId = m.nextId := by
  induction reqs with
  | nil => intro m; rfl
  | cons r rs ih =>
    intro m
    simp only [serveAll, List.foldl_cons]
    exact ih (serve m r).1

theorem responseId_created (eventos : List Event) (b : Body) (h : validateCreate b = []) :
    responseId (postEvent eventos b).2 = some (nextId eventos) := by
  rw [postEvent_accepted_created eventos b h]
  rfl

/-- C17: the id of a new event is recomputed from the collection on every
create, so an id is reused: on the program's initial state a create is given
id 3, the delete of "3" brings the state back, and a second create is given id
3 again (and for every collection, a create, the delete of its id and a second
create give the second event the id of the first); the module-level
`nextId` never influences a response or the collection, and stays 3 for ever,
also when the ids given are 3 and then 4. -/
theorem ids_recomputed :
    responseId (serve initialModule (.create bonoBody)).2 = some 3 ∧
    (serve (serve initialModule (.create bonoBody)).1 (.delete (.str "3"))).1 = initialModule ∧
    responseId (serve (serve (serve initialModule (.create bonoBody)).1
      (.delete (.str "3"))).1 (.create bonoBody)).2 = some 3 ∧
    (∀ (eventos : List Event) (b1 b2 : Body) (v : JsVal),
      validateCreate b1 = [] → validateCreate b2 = [] → looseEq (nextId eventos) v = true →
      responseId (postEvent (deleteEvent (postEvent eventos b1).1 v).1 b2).2
        = responseId (postEvent eventos b1).2) ∧
    (∀ (m : Module) (k : Int) (r : Request),
      (serve { m with nextId := k } r).2 = (serve m r).2 ∧
      (serve { m with nextId := k } r).1.eventos = (serve m r).1.eventos) ∧
    (∀ reqs : List Request, (serveAll initialModule reqs).nextId = 3) ∧
    responseId (serve (serve initialModule (.create bonoBody)).1 (.create bonoBody)).2
      = some 4 := by
  have hb : validateCreate bonoBody = [] := by decide
  have hdel : deleteEvent (postEvent seedEventos bonoBody).1 (.str "3")
      = (seedEventos, { status := 200, code := "OK", message := "Event deleted successfully!",
                        data := some (.event (createdEvent seedEventos bonoBody)),
                        errors := none }) := by
    rw [postEvent_accepted_created seedEventos bonoBody hb]
    exact deleteEvent_created seedEventos bonoBody (.str "3") looseEq_three_three
  have hback : (serve (serve initialModule (.create bonoBody)).1 (.delete (.str "3"))).1
      = initialModule := by
    simp only [serve, handle, initialModule, hdel]
  refine ⟨by decide, hback, ?_, ?_, ?_, ?_, by decide⟩
  · rw [hback]; decide
  · intro eventos b1 b2 v h1 h2 hv
    rw [responseId_created eventos b1 h1]
    have hd : (deleteEvent (postEvent eventos b1).1 v).1 = eventos := by
      rw [postEvent_accepted_created eventos b1 h1, deleteEvent_created eventos b1 v hv]
    rw [hd, responseId_created eventos b2 h2]
  · intro m k r
    exact ⟨rfl, rfl⟩
  · intro reqs
    exact serveAll_nextId reqs initialModule

/-! ## Pages -/

theorem take_append_slice {α : Type} (xs : List α) (a b : Nat) (h : a ≤ b) :
    xs.take a ++ (xs.take b).drop a = xs.take b := by
  have h1 : (xs.take b).take a = xs.take a := by
    rw [List.take_take, Nat.min_eq_left h]
  rw [← h1]
  exact List.take_append_drop a (xs.take b)

theorem slices_flatten {α : Type} (xs : List α) (L k : Nat) :
    ((List.range k).map (fun i => (xs.take ((i + 1) * L)).drop (i * L))).flatten
      = xs.take (k * L) := by
  induction k with
  | zero => simp
  | succ k ih =>
    rw [List.range_succ, List.map_append, List.flatten_append, ih]
    simp only [List.map_cons, List.map_nil, List.flatten_cons, List.flatten_nil,
      List.append_nil]
    exact take_append_slice xs (k * L) ((k + 1) * L) (Nat.mul_le_mul_right L (Nat.le_succ k))

theorem pageCount_mul_ge (T L : Nat) (hL : 1 ≤ L) : T ≤ pageCount T L * L := by
  unfold pageCount
  have h1 := Nat.div_add_mod (T + L - 1) L
  have h2 := Nat.mod_lt (T + L - 1) (show 0 < L by omega)
  have h3 : (T + L - 1) / L * L = L * ((T + L - 1) / L) := Nat.mul_comm _ _
  omega

theorem pageCount_pred_mul_lt (T L k : Nat) (hL : 1 ≤ L) (hk : k < pageCount T L) :
    k * L < T := by
  have hle : (k + 1) * L ≤ pageCount T L * L := Nat.mul_le_mul_right L hk
  have hn : pageCount T L * L ≤ T + L - 1 := by
    unfold pageCount
    exact Nat.div_mul_le_self _ _
  have hs : (k + 1) * L = k * L + L := by ring
  omega

theorem getEvents_items (eventos : List Event) (q : ListQuery) (k : Nat)
    (hq : validateList q = []) (hP : requestedPage q = ((k + 1 : Nat) : Int)) :
    ∃ L : Nat, requestedLimit q = (L : Int) ∧ 1 ≤ L ∧ L ≤ 100 ∧
      responseEvents (getEvents eventos q).2
        = ((filteredData eventos q).take ((k + 1) * L)).drop (k * L) := by
  obtain ⟨_, _, hpage, hlimit⟩ := validateList_nil q hq
  obtain ⟨hp1, _, _⟩ := orDefault_valid q.page 1 none (le_refl 1) hpage
  obtain ⟨hl1, hl2, hl3⟩ := orDefault_valid q.limit 10 (some 100) (by decide) hlimit
  have hpP : orDefault q.page 1 = ((k + 1 : Nat) : Int) := by rw [hp1, ← hP]; rfl
  obtain ⟨L, hLeq⟩ : ∃ L : Nat, orDefault q.limit 10 = (L : Int) :=
    ⟨(orDefault q.limit 10).toNat, (Int.toNat_of_nonneg (by omega)).symm⟩
  have hL1 : 1 ≤ L := by rw [hLeq] at hl2; exact_mod_cast hl2
  have hL100 : L ≤ 100 := by
    have := hl3 100 rfl (by decide)
    rw [hLeq] at this
    exact_mod_cast this
  refine ⟨L, ?_, hL1, hL100, ?_⟩
  · rw [← hLeq, hl1]; rfl
  · have hstart : ((((k + 1 : Nat) : Int) - 1) * (L : Int)) = ((k * L : Nat) : Int) := by
      push_cast; ring
    have hstop : ((k * L : Nat) : Int) + (L : Int) = (((k + 1) * L : Nat) : Int) := by
      push_cast; ring
    rw [getEvents_accepted eventos q hq, hpP, hLeq, hstart, hstop, jsSlice_nonneg]
    rfl

theorem validateList_pageQuery (q : ListQuery) (k : Nat) (hq : validateList q = []) :
    validateList (pageQuery q (k + 1)) = [] ∧
    requestedPage (pageQuery q (k + 1)) = ((k + 1 : Nat) : Int) := by
  obtain ⟨htipo, hmes, _, hlimit⟩ := validateList_nil q hq
  have hr := readInt_decimalText ((k + 1 : Nat) : Int)
  constructor
  · simp only [validateList, List.append_eq_nil, check_eq_nil]
    refine ⟨⟨⟨htipo, hmes⟩, ?_⟩, hlimit⟩
    show isIntBetween 1 none (decimalText ((k + 1 : Nat) : Int)) = true
    simp only [isIntBetween, hr, Bool.and_true, decide_eq_true_eq]
    omega
  · show (readInt (decimalText ((k + 1 : Nat) : Int)).toList).getD 0 = ((k + 1 : Nat) : Int)
    rw [hr]
    rfl

theorem pageEvents_eq (eventos : List Event) (q : ListQuery) (L k : Nat)
    (hq : validateList q = []) (hL : requestedLimit q = (L : Int)) :
    1 ≤ L ∧ L ≤ 100 ∧
    pageEvents eventos q (k + 1)
      = ((filteredData eventos q).take ((k + 1) * L)).drop (k * L) := by
  obtain ⟨hv, hp⟩ := validateList_pageQuery q k hq
  obtain ⟨L2, hL2, h1, h100, hitems⟩ := getEvents_items eventos (pageQuery q (k + 1)) k hv hp
  have hsame : requestedLimit (pageQuery q (k + 1)) = requestedLimit q := rfl
  have hLL : L2 = L := by
    rw [hsame, hL] at hL2
    exact_mod_cast hL2.symm
  subst hLL
  exact ⟨h1, h100, hitems⟩

/-- C15: for every collection and every accepted query with limit `L` (from 1
to 100), the events the list route returns for the pages 1, 2, ... up to the
page count `total / L` rounded up, put one after the other, are exactly the
filtered list (the events of the collection that match the filter of the
query, each once and in collection order), `total` being its length; every
page before the last has `L` events, the last, when there is one, from 1 to
`L`, and every page after it none. -/
theorem pages_partition (eventos : List Event) (q : ListQuery) (L : Nat)
    (hq : validateList q = []) (hL : requestedLimit q = (L : Int)) :
    1 ≤ L ∧ L ≤ 100 ∧
    ((List.range (pageCount (eventos.filter (matchesFilter q)).length L)).map
        (fun i => pageEvents eventos q (i + 1))).flatten = eventos.filter (matchesFilter q) ∧
    (∀ p, 1 ≤ p → p < pageCount (eventos.filter (matchesFilter q)).length L →
      (pageEvents eventos q p).length = L) ∧
    (1 ≤ pageCount (eventos.filter (matchesFilter q)).length L →
      1 ≤ (pageEvents eventos q
            (pageCount (eventos.filter (matchesFilter q)).length L)).length ∧
      (pageEvents eventos q
            (pageCount (eventos.filter (matchesFilter q)).length L)).length ≤ L) ∧
    (∀ p, pageCount (eventos.filter (matchesFilter q)).length L < p →
      pageEvents eventos q p = []) := by
  rw [← filteredData_valid eventos q hq]
  have hpe := fun k => pageEvents_eq eventos q L k hq hL
  have hL1 : 1 ≤ L := (hpe 0).1
  have hge := pageCount_mul_ge (filteredData eventos q).length L hL1
  refine ⟨hL1, (hpe 0).2.1, ?_, ?_, ?_, ?_⟩
  · have hfun : (fun i => pageEvents eventos q (i + 1))
        = (fun i => ((filteredData eventos q).take ((i + 1) * L)).drop (i * L)) := by
      funext i
      exact (hpe i).2.2
    rw [hfun, slices_flatten]
    exact List.take_of_length_le hge
  · intro p hp1 hpn
    obtain ⟨k, rfl⟩ : ∃ k, p = k + 1 := ⟨p - 1, by omega⟩
    rw [(hpe k).2.2, slice_length]
    have hlt := pageCount_pred_mul_lt (filteredData eventos q).length L (k + 1) hL1 hpn
    have hs : (k + 1) * L = k * L + L := by ring
    omega
  · intro hn
    obtain ⟨k, hk⟩ : ∃ k, pageCount (filteredData eventos q).length L = k + 1 :=
      ⟨pageCount (filteredData eventos q).length L - 1, by omega⟩
    rw [hk, (hpe k).2.2, slice_length]
    have hlt := pageCount_pred_mul_lt (filteredData eventos q).length L k hL1 (by omega)
    rw [hk] at hge
    have hs : (k + 1) * L = k * L + L := by ring
    omega
  · intro p hp
    obtain ⟨k, rfl⟩ : ∃ k, p = k + 1 := ⟨p - 1, by omega⟩
    rw [(hpe k).2.2]
    apply List.drop_eq_nil_of_le
    rw [List.length_take]
    have hle : pageCount (filteredData eventos q).length L * L ≤ k * L :=
      Nat.mul_le_mul_right L (by omega)
    exact Nat.le_trans (Nat.min_le_right _ _) (Nat.le_trans hge hle)

/-- C15 on four events, of which two are of tipo "ingreso" and of December
2024, with the query `tipo=ingreso&mes=2024-12` and one event a page: two
pages, the first and then the second of these two, nothing on page 3, and the
other two events on no page. -/
theorem pages_partition_witness :
    cuatroEventos.filter (matchesFilter ingresosDeUno) = [sueldoEvent, bonoEvent] ∧
    pageCount (cuatroEventos.filter (matchesFilter ingresosDeUno)).length 1 = 2 ∧
    pageEvents cuatroEventos ingresosDeUno 1 = [sueldoEvent] ∧
    pageEvents cuatroEventos ingresosDeUno 2 = [bonoEvent] ∧
    pageEvents cuatroEventos ingresosDeUno 3 = [] ∧
    (1 ≤ 1 ∧ 1 ≤ 100 ∧
      ((List.range (pageCount (cuatroEventos.filter (matchesFilter ingresosDeUno)).length 1)).map
          (fun i => pageEvents cuatroEventos ingresosDeUno (i + 1))).flatten
        = cuatroEventos.filter (matchesFilter ingresosDeUno) ∧
      (∀ p, 1 ≤ p →
        p < pageCount (cuatroEventos.filter (matchesFilter ingresosDeUno)).length 1 →
        (pageEvents cuatroEventos ingresosDeUno p).length = 1) ∧
      (1 ≤ pageCount (cuatroEventos.filter (matchesFilter ingresosDeUno)).length 1 →
        1 ≤ (pageEvents cuatroEventos ingresosDeUno
              (pageCount (cuatroEventos.filter (matchesFilter ingresosDeUno)).length 1)).length ∧
        (pageEvents cuatroEventos ingresosDeUno
              (pageCount (cuatroEventos.filter (matchesFilter ingresosDeUno)).length 1)).length
          ≤ 1) ∧
      (∀ p, pageCount (cuatroEventos.filter (matchesFilter ingresosDeUno)).length 1 < p →
        pageEvents cuatroEventos ingresosDeUno p = [])) :=
  ⟨by decide, by decide, by decide, by decide, by decide,
    pages_partition cuatroEventos ingresosDeUno 1 (by decide) (by decide)⟩

end Walletfy
